import Mathlib

/-!
Verification of the mafiabot game core against its specification.

The definitions below are a shallow embedding of the Python sources:
`models.py` (data model and role registry), `game_engine.py`
(`assign_roles`, `resolve_night`, `resolve_votes_job`,
`check_win_conditions_sync`) and `main.py` (callback handling for
pending actions, the mafia confirmation protocol and startup
rescheduling).  Python dicts are modelled as insertion-ordered
association lists, `collections.Counter.most_common(1)` as a fold that
keeps the earliest element of maximal count, and the asynchronous
messaging side effects as explicit result lists.
-/

namespace Mafiabot

/-- Factions, from `models.Faction`. -/
inductive Faction where
  | town
  | mafia
  | neutral
deriving DecidableEq, Repr

/-- Static role registry entry, from `models.Role`. -/
structure Role where
  key : String
  name : String
  faction : Faction
  has_night_action : Bool
  detective_signature : Option String
  sheriff_detects_as_guilty : Bool
  undetectable_by_detective : Bool
deriving DecidableEq, Repr

/-- The role registry built by the `reg_role` calls in `models.py`. -/
def ROLES : String → Option Role
  | "mafia" => some ⟨"mafia", "Mafioso", Faction.mafia, true, some "ARMA", false, false⟩
  | "padrino" => some ⟨"padrino", "Padrino", Faction.mafia, true, none, false, true⟩
  | "doctor" => some ⟨"doctor", "Doctor", Faction.town, true, some "CUCHILLO", false, false⟩
  | "detective" => some ⟨"detective", "Detective", Faction.town, true, none, false, false⟩
  | "sheriff" => some ⟨"sheriff", "Sheriff", Faction.town, true, none, true, false⟩
  | "escort" => some ⟨"escort", "Escort", Faction.town, true, some "BLOQUEADOR", false, false⟩
  | "consorte" => some ⟨"consorte", "Consorte", Faction.mafia, true, some "BLOQUEADOR", false, false⟩
  | "chantajeador" => some ⟨"chantajeador", "Chantajeador", Faction.mafia, true, some "SUSPECTO", false, false⟩
  | "guardaespaldas" => some ⟨"guardaespaldas", "Guardaespaldas", Faction.town, true, none, false, false⟩
  | "vigilante" => some ⟨"vigilante", "Vigilante", Faction.town, true, some "ARMA", false, false⟩
  | "asesino" => some ⟨"asesino", "AsesinoEnSerie", Faction.neutral, true, some "CUCHILLO", false, false⟩
  | "ciudadano" => some ⟨"ciudadano", "Ciudadano", Faction.town, false, none, false, false⟩
  | _ => none

/-- Per-player state, from `models.PlayerState`. -/
structure PlayerState where
  user_id : Nat
  name : String
  role_key : Option String
  alive : Bool
  blocked : Bool
  silenced : Bool
deriving DecidableEq, Repr

/-- The `g.night_actions` ledger: a Python dict keyed by the action-kind
strings that the code actually uses, modelled as one list per kind. -/
structure NightActions where
  block : List (Nat × Nat)
  heal : List (Nat × Nat)
  guard : List (Nat × Nat)
  investigate : List (Nat × Nat)
  blackmail : List (Nat × Nat)
  serial_kill : List (Nat × Nat)
  vigilante_shot : List (Nat × Nat)
  vote : List (Nat × Nat)
  mafia_confirmed : List (Nat × Nat)
deriving DecidableEq, Repr

/-- Model of `defaultdict(list)`: every kind starts out empty. -/
def NightActions.empty : NightActions :=
  ⟨[], [], [], [], [], [], [], [], []⟩

/-- A persisted pending action (row of `pending_actions` plus the
in-memory `pending_action_callbacks` mirror): action tag, expected
actor, payload (`extra["target"]`, `extra["confirmations"]`) and
expiry. -/
structure PendingRec where
  action : String
  actor : Option Nat
  target : Option Nat
  confirmations : List Nat
  message_id : Nat
  expires_at : Option Nat
deriving DecidableEq, Repr

/-- Game state, from `models.GameState`.  The Python dicts `players`,
`mafia_votes` and `pending_action_callbacks` become insertion-ordered
association lists. -/
structure GameState where
  chat_id : Nat
  host_id : Nat
  phase : String
  roles_config : List (String × Int)
  night_seconds : Nat
  day_seconds : Nat
  periodic_reminder_seconds : Nat
  phase_deadline : Option Nat
  players : List (Nat × PlayerState)
  night_actions : NightActions
  mafia_votes : List (Nat × Nat)
  pending_action_callbacks : List (String × PendingRec)
deriving DecidableEq, Repr

/-- Python dict assignment `d[k] = v`: replace in place when the key is
present (keeping its position), append otherwise. -/
def dictSet (m : List (Nat × Nat)) (k v : Nat) : List (Nat × Nat) :=
  if m.any (fun kv => kv.1 == k) then
    m.map (fun kv => if kv.1 == k then (k, v) else kv)
  else
    m ++ [(k, v)]

/-- Model of `Counter(vs).most_common(1)[0][0]`: the value of maximal
multiplicity in `vs`; among values of equal count the one first
encountered wins (CPython `Counter` keeps first-encounter key order and
`most_common` sorts stably). -/
def mostCommon (vs : List Nat) : Option Nat :=
  vs.foldl
    (fun best v =>
      match best with
      | none => some v
      | some b => if vs.count b < vs.count v then some v else some b)
    none

/-- The distinct values of `vs` in first-encounter order: the key order
of `Counter(vs)`, used by `cnt.items()` in `resolve_votes_job`. -/
def uniqAux (acc : List Nat) : List Nat → List Nat
  | [] => acc
  | v :: vs => if acc.contains v then uniqAux acc vs else uniqAux (acc ++ [v]) vs

/-- Distinct values in first-encounter order. -/
def uniqVals (vs : List Nat) : List Nat :=
  uniqAux [] vs

/-- Model of `g.players.get(uid)`. -/
def lookupPlayer (players : List (Nat × PlayerState)) (uid : Nat) : Option PlayerState :=
  players.lookup uid

/-- Model of `g.players[uid].alive = v` (no-op for an absent key, as every
call site first checks membership). -/
def setAlive (players : List (Nat × PlayerState)) (uid : Nat) (v : Bool) :
    List (Nat × PlayerState) :=
  players.map (fun up => if up.1 == uid then (up.1, { up.2 with alive := v }) else up)

/-- Model of `g.players[uid].silenced = v`. -/
def setSilenced (players : List (Nat × PlayerState)) (uid : Nat) (v : Bool) :
    List (Nat × PlayerState) :=
  players.map (fun up => if up.1 == uid then (up.1, { up.2 with silenced := v }) else up)

/-- The faction of a player, looked up through the registry
(`ROLES[p.role_key].faction` guarded by `p.role_key and
ROLES.get(p.role_key)`). -/
def factionOf (p : PlayerState) : Option Faction :=
  p.role_key.bind (fun k => (ROLES k).map (fun r => r.faction))

/-- Model of `role_name = ROLES.get(rk).name if rk and ROLES.get(rk) else "?"`,
including the Python truthiness of the role-key string. -/
def roleDisplayName (rk : Option String) : String :=
  match rk with
  | some k =>
    if k = "" then "?"
    else
      match ROLES k with
      | some r => r.name
      | none => "?"
  | none => "?"

/-- The local `mafias` of `check_win_conditions_sync`. -/
def aliveMafias (g : GameState) : List PlayerState :=
  (g.players.map (fun up => up.2)).filter
    (fun p => p.alive && factionOf p == some Faction.mafia)

/-- The local `towns` of `check_win_conditions_sync`. -/
def aliveTowns (g : GameState) : List PlayerState :=
  (g.players.map (fun up => up.2)).filter
    (fun p => p.alive && factionOf p == some Faction.town)

/-- The local `sk` of `check_win_conditions_sync`. -/
def aliveSerials (g : GameState) : List PlayerState :=
  (g.players.map (fun up => up.2)).filter
    (fun p => p.alive && p.role_key == some "asesino")

/-- All currently-alive players. -/
def alivePlayers (g : GameState) : List PlayerState :=
  (g.players.map (fun up => up.2)).filter (fun p => p.alive)

/-- Translation of `check_win_conditions_sync` from `game_engine.py` (lines 311-322):
returns `"town"`, `"mafia"`, `"serial"` or `None`. -/
def check_win_conditions_sync (g : GameState) : Option String :=
  if (aliveMafias g).isEmpty && (aliveSerials g).isEmpty then some "town"
  else if !(aliveMafias g).isEmpty && (aliveTowns g).length ≤ (aliveMafias g).length then
    some "mafia"
  else if !(aliveSerials g).isEmpty && (alivePlayers g).length == 1 then some "serial"
  else none

/-- The `blocked` set of `resolve_night`: targets of `block` entries
whose actor exists and is alive. -/
def blockedTargets (g : GameState) : List Nat :=
  (g.night_actions.block.filter (fun at_ =>
    match lookupPlayer g.players at_.1 with
    | some a => a.alive
    | none => false)).map (fun at_ => at_.2)

/-- Model of `for b in blocked: if b in g.players: g.players[b].blocked = True`. -/
def applyBlocks (players : List (Nat × PlayerState)) (blocked : List Nat) :
    List (Nat × PlayerState) :=
  players.map (fun up =>
    if blocked.contains up.1 then (up.1, { up.2 with blocked := true }) else up)

/-- The mafia collective target: `Counter(g.mafia_votes.values()).most_common(1)[0][0]`
when `g.mafia_votes` is non-empty, `None` otherwise. -/
def mafiaTarget (g : GameState) : Option Nat :=
  mostCommon (g.mafia_votes.map (fun kv => kv.2))

/-- Model of `next((uid for uid, p in g.players.items() if p.role_key in
("mafia", "padrino", "consorte") and p.alive and not p.blocked), None)`. -/
def mafiaSource (players : List (Nat × PlayerState)) : Option Nat :=
  (players.find? (fun up =>
    (up.2.role_key == some "mafia" || up.2.role_key == some "padrino" ||
      up.2.role_key == some "consorte") && up.2.alive && !up.2.blocked)).map
    (fun up => up.1)

/-- Model of `a and a.alive and not a.blocked` for the actor of a ledger entry. -/
def actorAliveUnblocked (players : List (Nat × PlayerState)) (uid : Nat) : Bool :=
  match lookupPlayer players uid with
  | some a => a.alive && !a.blocked
  | none => false

/-- The single mafia attack of `resolve_night` (lines 94-99): present
exactly when the collective target is truthy and some alive, unblocked
mafia-roled source exists. -/
def mafiaAttackOpt (g : GameState) : Option (Nat × Nat) :=
  match mafiaTarget g with
  | none => none
  | some t =>
    if t = 0 then none
    else
      match mafiaSource g.players with
      | none => none
      | some src => some (src, t)

/-- The full enqueue-ordered attack list of `resolve_night`
(lines 94-109): the mafia attack, then vigilante shots, then serial
kills, each gated on an alive, unblocked actor. -/
def buildAttacks (g : GameState) : List (Nat × Nat × String) :=
  (match mafiaAttackOpt g with
   | some st => [(st.1, st.2, "mafia")]
   | none => []) ++
  (g.night_actions.vigilante_shot.filter (fun at_ => actorAliveUnblocked g.players at_.1)).map
    (fun at_ => (at_.1, at_.2, "vigilante")) ++
  (g.night_actions.serial_kill.filter (fun at_ => actorAliveUnblocked g.players at_.1)).map
    (fun at_ => (at_.1, at_.2, "asesino"))

/-- The `heals` set (lines 112-116). -/
def healTargets (g : GameState) : List Nat :=
  (g.night_actions.heal.filter (fun at_ => actorAliveUnblocked g.players at_.1)).map
    (fun at_ => at_.2)

/-- The `guards` dict `target -> actor` (lines 118-122), as ordered
(target, actor) pairs; a later entry for the same target overwrites. -/
def guardPairs (g : GameState) : List (Nat × Nat) :=
  (g.night_actions.guard.filter (fun at_ => actorAliveUnblocked g.players at_.1)).map
    (fun at_ => (at_.2, at_.1))

/-- Lookup `guards[target]` with dict overwrite semantics: the last pair wins. -/
def guardFor (guards : List (Nat × Nat)) (t : Nat) : Option Nat :=
  guards.reverse.lookup t

/-- State threaded through the attack loop of `resolve_night`
(lines 124-142): the live player table, the `deaths` list and the
night-summary `log_lines`. -/
structure AttackState where
  players : List (Nat × PlayerState)
  deaths : List Nat
  log : List String
deriving DecidableEq, Repr

/-- Summary line `- ... fue curado/a y sobrevivió a un ataque.` -/
def healedLine (name : String) : String :=
  "- " ++ name ++ " fue curado/a y sobrevivió a un ataque."

/-- Summary line `- ... (Guardaespaldas) murió protegiendo a ...` -/
def guardDiedLine (guardName targetName : String) : String :=
  "- " ++ guardName ++ " (Guardaespaldas) murió protegiendo a " ++ targetName ++ "."

/-- Summary line `- ... fue asesinado/a. Era *...*.` -/
def killedLine (name roleName : String) : String :=
  "- " ++ name ++ " fue asesinado/a. Era *" ++ roleName ++ "*."

/-- The `# otherwise target dies` tail of one attack iteration. -/
def killTarget (s : AttackState) (target : Nat) (tp : PlayerState) : AttackState :=
  { players := setAlive s.players target false
    deaths := s.deaths ++ [target]
    log := s.log ++ [killedLine tp.name (roleDisplayName tp.role_key)] }

/-- One iteration of the attack loop (lines 125-142): skip a dead or
unknown target, negate on heal, redirect onto a living guard, otherwise
kill the target. -/
def applyAttack (heals : List Nat) (guards : List (Nat × Nat)) (s : AttackState)
    (atk : Nat × Nat × String) : AttackState :=
  match lookupPlayer s.players atk.2.1 with
  | none => s
  | some tp =>
    if !tp.alive then s
    else if heals.contains atk.2.1 then
      { s with log := s.log ++ [healedLine tp.name] }
    else
      match guardFor guards atk.2.1 with
      | some gid =>
        (match lookupPlayer s.players gid with
         | some gp =>
           if gp.alive then
             { players := setAlive s.players gid false
               deaths := s.deaths ++ [gid]
               log := s.log ++ [guardDiedLine gp.name tp.name] }
           else killTarget s atk.2.1 tp
         | none => killTarget s atk.2.1 tp)
      | none => killTarget s atk.2.1 tp

/-- The whole attack loop, in enqueue order. -/
def applyAttacks (heals : List Nat) (guards : List (Nat × Nat)) (s : AttackState)
    (atks : List (Nat × Nat × String)) : AttackState :=
  atks.foldl (applyAttack heals guards) s

/-- One `blackmail` iteration (lines 145-149): a living, unblocked
actor silences a living target. -/
def applyBlackmailEntry (st : List (Nat × PlayerState) × List String) (entry : Nat × Nat) :
    List (Nat × PlayerState) × List String :=
  match lookupPlayer st.1 entry.1 with
  | none => st
  | some a =>
    if a.alive && !a.blocked then
      match lookupPlayer st.1 entry.2 with
      | some t =>
        if t.alive then
          (setSilenced st.1 entry.2 true,
            st.2 ++ ["- " ++ t.name ++ " fue chantajeado/a y estará silenciado durante el día."])
        else st
      | none => st
    else st

/-- All `blackmail` entries, in ledger order. -/
def applyBlackmails (st : List (Nat × PlayerState) × List String)
    (entries : List (Nat × Nat)) : List (Nat × PlayerState) × List String :=
  entries.foldl applyBlackmailEntry st

/-- One investigation result (lines 152-174), as the DM text sent to
the investigator. -/
def investigationResult (players : List (Nat × PlayerState)) (inv : PlayerState)
    (target : Nat) : String :=
  match lookupPlayer players target with
  | none => "No válido (jugador no disponible)."
  | some tp =>
    if !tp.alive then "No válido (jugador no disponible)."
    else
      let targetRole : Option Role :=
        match tp.role_key with
        | some k => if k = "" then none else ROLES k
        | none => none
      if inv.role_key == some "sheriff" then
        match targetRole with
        | some r =>
          if r.faction = Faction.mafia ∨ r.key = "asesino" then "CULPABLE" else "INOCENTE"
        | none => "INOCENTE"
      else
        match targetRole with
        | none => "INOCENTE"
        | some r =>
          if r.undetectable_by_detective then "INOCENTE"
          else
            match r.detective_signature with
            | some s => if s = "" then "INOCENTE" else "Firma: " ++ s
            | none => "INOCENTE"

/-- All investigation DMs `(actor, text)` for alive, unblocked
investigators, in ledger order. -/
def investigationDMs (players : List (Nat × PlayerState))
    (entries : List (Nat × Nat)) : List (Nat × String) :=
  (entries.filter (fun at_ =>
    match lookupPlayer players at_.1 with
    | some inv => inv.alive && !inv.blocked
    | none => false)).map (fun at_ =>
      match lookupPlayer players at_.1 with
      | some inv => (at_.1, "🔎 Resultado de investigación: " ++ investigationResult players inv at_.2)
      | none => (at_.1, ""))

/-- End-of-night cleanup (lines 192-196): clear the ledgers, the mafia
votes, every `blocked` flag and the phase deadline. -/
def nightCleanup (g : GameState) (players : List (Nat × PlayerState)) : GameState :=
  { g with
    players := players.map (fun up => (up.1, { up.2 with blocked := false }))
    night_actions := NightActions.empty
    mafia_votes := []
    phase_deadline := none }

/-- Result of `resolve_night`: the new state, the summary log lines,
the `deaths` list, the investigator DMs and the group messages. -/
structure NightOutcome where
  g : GameState
  log : List String
  deaths : List Nat
  dms : List (Nat × String)
  msgs : List String
deriving Repr

/-- The winner announcement texts of `resolve_night` / `resolve_votes_job`. -/
def winnerMsg (w : String) : String :=
  if w = "town" then "🎉 ¡El Pueblo gana!"
  else if w = "mafia" then "😈 ¡La Mafia gana!"
  else if w = "serial" then "🔪 El Asesino en Serie ha ganado."
  else ""

/-- The intermediate state of `resolve_night` once all `block` effects
are applied (lines 77-85). -/
def nightG1 (g : GameState) : GameState :=
  { g with players := applyBlocks g.players (blockedTargets g) }

/-- The attack-loop result of `resolve_night` (lines 94-142). -/
def nightAfterAttacks (g : GameState) : AttackState :=
  applyAttacks (healTargets (nightG1 g)) (guardPairs (nightG1 g))
    ⟨(nightG1 g).players, [], []⟩ (buildAttacks (nightG1 g))

/-- Player table and log after the blackmail pass (lines 144-149). -/
def nightAfterBlackmail (g : GameState) : List (Nat × PlayerState) × List String :=
  applyBlackmails ((nightAfterAttacks g).players, (nightAfterAttacks g).log)
    (nightG1 g).night_actions.blackmail

/-- The final `log_lines` of the night summary (lines 181-183). -/
def nightLog (g : GameState) : List String :=
  if (nightAfterBlackmail g).2.isEmpty then ["Esta noche no hubo muertes."]
  else (nightAfterBlackmail g).2

/-- The state after cleanup (lines 191-196), before the win check. -/
def nightG2 (g : GameState) : GameState :=
  nightCleanup (nightG1 g) (nightAfterBlackmail g).1

/-- Translation of `resolve_night` from `game_engine.py` (lines 67-225): blocks, the
mafia collective attack, solo attacks, heals and guards, the attack
loop, blackmail, investigations, the night summary, cleanup and the
win check. -/
def resolve_night (g : GameState) : NightOutcome :=
  match check_win_conditions_sync (nightG2 g) with
  | some w =>
    { g := { nightG2 g with phase := "inactive" }
      log := nightLog g
      deaths := (nightAfterAttacks g).deaths
      dms := investigationDMs (nightAfterBlackmail g).1 (nightG1 g).night_actions.investigate
      msgs := ["*Resumen de la noche:*\n" ++ String.intercalate "\n" (nightLog g),
        winnerMsg w] }
  | none =>
    { g := nightG2 g
      log := nightLog g
      deaths := (nightAfterAttacks g).deaths
      dms := investigationDMs (nightAfterBlackmail g).1 (nightG1 g).night_actions.investigate
      msgs := ["*Resumen de la noche:*\n" ++ String.intercalate "\n" (nightLog g)] }

/-- Result of `resolve_votes_job`: the new state and the group
messages sent along the way. -/
structure VoteOutcome where
  g : GameState
  msgs : List String
deriving Repr

/-- Announcement `⚖️ El pueblo linchó a ... Era *...*.` -/
def lynchMsg (name roleName : String) : String :=
  "⚖️ El pueblo linchó a " ++ name ++ ". Era *" ++ roleName ++ "*."

/-- The day-vote values `[t for (v, t) in g.night_actions["vote"]]`. -/
def dayVotes (g : GameState) : List Nat :=
  g.night_actions.vote.map (fun vt => vt.2)

/-- The registered mafia vote values, in member first-vote order. -/
def mafiaVoteVals (g : GameState) : List Nat :=
  g.mafia_votes.map (fun kv => kv.2)

/-- The `top` list of `resolve_votes_job` (line 258): the distinct
vote targets tied with `chosen` for the top count. -/
def voteTop (g : GameState) (chosen : Nat) : List Nat :=
  (uniqVals (dayVotes g)).filter
    (fun t => (dayVotes g).count t == (dayVotes g).count chosen)

/-- The tally-and-lynch step of `resolve_votes_job` (lines 256-267):
the updated state plus the announcement messages. -/
def lynchStep (g : GameState) (chosen : Nat) : GameState × List String :=
  if 1 < (voteTop g chosen).length then
    (g, ["Empate en la votación. No se lincha a nadie."])
  else
    match lookupPlayer g.players chosen with
    | some p =>
      if p.alive then
        ({ g with players := setAlive g.players chosen false },
          [lynchMsg p.name (roleDisplayName p.role_key)])
      else (g, [])
    | none => (g, [])

/-- Translation of `resolve_votes_job` from `game_engine.py` (lines 231-305): tally
`night_actions["vote"]`, lynch a strict plurality target, skip on a tie
or on no votes, then either finish the game or return to night. -/
def resolve_votes_job (g : GameState) : VoteOutcome :=
  if (dayVotes g).isEmpty then
    { g := { g with phase := "night" }
      msgs := ["No hubo votos. No se lincha a nadie.", "🌙 Vuelve la noche."] }
  else
    match mostCommon (dayVotes g) with
    | none => { g := g, msgs := [] }
    | some chosen =>
      match check_win_conditions_sync (lynchStep g chosen).1 with
      | some w =>
        { g := { (lynchStep g chosen).1 with phase := "inactive" }
          msgs := (lynchStep g chosen).2 ++ [winnerMsg w] }
      | none =>
        { g := { (lynchStep g chosen).1 with phase := "night" }
          msgs := (lynchStep g chosen).2 ++ ["🌙 Comienza la noche."] }

/-- The role pool of `assign_roles` (`game_engine.py` lines 47-56):
expand each configured count (clamped at zero), then pad with
`"ciudadano"` up to the number of players. -/
def buildPool (roles_config : List (String × Int)) (nplayers : Nat) : List String :=
  let base := roles_config.foldl
    (fun acc rc => acc ++ List.replicate rc.2.toNat rc.1) []
  base ++ List.replicate (nplayers - base.length) "ciudadano"

/-- Model of `for uid, rkey in zip(ids, pool): if uid in g.players:
g.players[uid].role_key = rkey`. -/
def assignPairs (players : List (Nat × PlayerState)) (pairs : List (Nat × String)) :
    List (Nat × PlayerState) :=
  pairs.foldl
    (fun ps pr =>
      ps.map (fun up => if up.1 == pr.1 then (up.1, { up.2 with role_key := some pr.2 }) else up))
    players

/-- Translation of `assign_roles` from `game_engine.py` (lines 43-61).  The two
`random.shuffle` calls are modelled by taking the shuffled id order and
the shuffled pool as parameters: `ids` must be a permutation of the
player keys, `pool` a permutation of `buildPool`. -/
def assign_roles (g : GameState) (ids : List Nat) (pool : List String) : GameState :=
  { g with players := assignPairs g.players (ids.zip pool) }

/-- How many players currently hold role `r`. -/
def countRoleKey (players : List (Nat × PlayerState)) (r : String) : Nat :=
  (players.filter (fun up => up.2.role_key == some r)).length

/-- Outcome classification of `cb_handler` on a callback response
(`main.py` lines 552-678). -/
inductive RespondOutcome where
  | invalidKey
  | expired
  | unauthorized
  | processed
deriving DecidableEq, Repr

/-- Model of `del pending[key]` within one session: the DB row and the memory
mirror are dropped together (`delete_pending_action_async`). -/
def deletePending (g : GameState) (key : String) : GameState :=
  { g with pending_action_callbacks :=
      g.pending_action_callbacks.filter (fun kv => kv.1 != key) }

/-- Lookup of `pending[key]` (memory first, else the identical DB row). -/
def pendingLookup (g : GameState) (key : String) : Option PendingRec :=
  g.pending_action_callbacks.lookup key

/-- Update the stored confirmation set of the pending action at `key`
(`append_confirmation_async`): append the user idic unless already
present. -/
def appendConfirmation (g : GameState) (key : String) (uid : Nat) : GameState :=
  { g with pending_action_callbacks :=
      g.pending_action_callbacks.map (fun kv =>
        if kv.1 == key then
          (kv.1,
            { kv.2 with confirmations :=
                if kv.2.confirmations.contains uid then kv.2.confirmations
                else kv.2.confirmations ++ [uid] })
        else kv) }

/-- The ids of the living mafia-faction members
(`[p.user_id for p in g.players.values() if p.alive and p.role_key and
ROLES[p.role_key].faction == Faction.MAFIA]`). -/
def aliveMafiaIds (g : GameState) : List Nat :=
  (g.players.filter (fun up => up.2.alive && factionOf up.2 == some Faction.mafia)).map
    (fun up => up.1)

/-- The `vote_group` branch of `cb_handler` (lines 667-676): drop any
earlier vote of the same voter, then append the new choice. -/
def voteStep (votes : List (Nat × Nat)) (user target : Nat) : List (Nat × Nat) :=
  votes.filter (fun vt => vt.1 != user) ++ [(user, target)]

/-- The confirmation set currently stored at `key`
(`gctx.get("extra", {}).get("confirmations", [])`). -/
def confirmationsAt (g : GameState) (key : String) : List Nat :=
  match pendingLookup g key with
  | some r => r.confirmations
  | none => []

/-- The dispatch body of `cb_handler` after expiry and authorization
pass (lines 601-678), per action tag. -/
def respondDispatch (g : GameState) (key : String) (rec : PendingRec) (user target : Nat) :
    GameState :=
  if rec.action = "mafia_confirm" then
    if (aliveMafiaIds (appendConfirmation g key user)).all
        (fun m => (confirmationsAt (appendConfirmation g key user) key).contains m) then
      match rec.target with
      | some t =>
        if t ≠ 0 then
          deletePending
            { appendConfirmation g key user with
                night_actions :=
                  { g.night_actions with mafia_confirmed :=
                      g.night_actions.mafia_confirmed ++ [(0, t)] } }
            key
        else appendConfirmation g key user
      | none => appendConfirmation g key user
    else appendConfirmation g key user
  else if rec.action = "mafia_pick" then
    { g with mafia_votes := dictSet g.mafia_votes user target }
  else if rec.action = "heal" then
    { g with night_actions :=
        { g.night_actions with heal := g.night_actions.heal ++ [(user, target)] } }
  else if rec.action = "block" then
    { g with night_actions :=
        { g.night_actions with block := g.night_actions.block ++ [(user, target)] } }
  else if rec.action = "guard" then
    { g with night_actions :=
        { g.night_actions with guard := g.night_actions.guard ++ [(user, target)] } }
  else if rec.action = "kill" then
    if ((lookupPlayer g.players user).bind (fun p => p.role_key)) == some "asesino" then
      { g with night_actions :=
          { g.night_actions with serial_kill := g.night_actions.serial_kill ++ [(user, target)] } }
    else
      { g with night_actions :=
          { g.night_actions with vigilante_shot :=
              g.night_actions.vigilante_shot ++ [(user, target)] } }
  else if rec.action = "investigate" then
    { g with night_actions :=
        { g.night_actions with investigate := g.night_actions.investigate ++ [(user, target)] } }
  else if rec.action = "blackmail" then
    { g with night_actions :=
        { g.night_actions with blackmail := g.night_actions.blackmail ++ [(user, target)] } }
  else if rec.action = "vote_group" then
    { g with night_actions :=
        { g.night_actions with vote := voteStep g.night_actions.vote user target } }
  else g

/-- The `respond` operation of the pending-action manager: the
validation prefix of `cb_handler` (lines 567-599) followed by the
action dispatch.  Expiry is checked before authorization, and an
expired key is lazily deleted. -/
def respond (g : GameState) (key : String) (user target now : Nat) :
    GameState × RespondOutcome :=
  match pendingLookup g key with
  | none => (g, RespondOutcome.invalidKey)
  | some rec =>
    match rec.expires_at with
    | some e =>
      if e ≠ 0 ∧ e < now then (deletePending g key, RespondOutcome.expired)
      else
        match rec.actor with
        | some a =>
          if a ≠ 0 ∧ a ≠ user then (g, RespondOutcome.unauthorized)
          else (respondDispatch g key rec user target, RespondOutcome.processed)
        | none => (respondDispatch g key rec user target, RespondOutcome.processed)
    | none =>
      match rec.actor with
      | some a =>
        if a ≠ 0 ∧ a ≠ user then (g, RespondOutcome.unauthorized)
        else (respondDispatch g key rec user target, RespondOutcome.processed)
      | none => (respondDispatch g key rec user target, RespondOutcome.processed)

/-- Model of `expire(key)`: `delete_pending_action_async` (`game_manager.py`
lines 456-468). -/
def expirePending (g : GameState) (key : String) : GameState :=
  deletePending g key

/-- Python dict upsert for the pending-action store
(`insert_pending_action_async`, `INSERT ... ON CONFLICT(key) DO UPDATE`). -/
def upsertPending (pending : List (String × PendingRec)) (key : String) (rec : PendingRec) :
    List (String × PendingRec) :=
  if pending.any (fun kv => kv.1 == key) then
    pending.map (fun kv => if kv.1 == key then (key, rec) else kv)
  else
    pending ++ [(key, rec)]

/-- Result of `handle_mafia_votes_and_confirm`: the new state, whether
a confirmation round was started, and the mafia members DM'ed. -/
structure ConfirmStart where
  g : GameState
  started : Bool
  notified : List Nat
deriving Repr

/-- Translation of `handle_mafia_votes_and_confirm` from `main.py` (lines 682-700):
once every living mafia member has voted, propose the plurality target
through a single shared `mafia_confirm` pending action (empty
confirmation set, expiry `now + confirm_timeout`) DM'ed to every mafia
member. -/
def handle_mafia_votes_and_confirm (g : GameState) (confirm_key : String) (now : Nat)
    (confirm_timeout : Nat := 60) : ConfirmStart :=
  if (aliveMafiaIds g).isEmpty then { g := g, started := false, notified := [] }
  else if !(aliveMafiaIds g).all
      (fun m => (g.mafia_votes.map (fun kv => kv.1)).contains m) then
    { g := g, started := false, notified := [] }
  else
    match mostCommon (g.mafia_votes.map (fun kv => kv.2)) with
    | some t =>
      { g := { g with pending_action_callbacks :=
          (upsertPending g.pending_action_callbacks confirm_key
            ({ action := "mafia_confirm", actor := none, target := some t,
               confirmations := [], message_id := 0,
               expires_at := some (now + confirm_timeout) } : PendingRec)) }
        started := true
        notified := aliveMafiaIds g }
    | none => { g := g, started := false, notified := [] }

/-- Result of `_mafia_confirm_timeout`: the new state and whether the
"unanimity failed, majority applies" announcement was sent. -/
structure TimeoutOutcome where
  g : GameState
  announced : Bool
deriving Repr

/-- Translation of `_mafia_confirm_timeout` from `main.py` (lines 703-727): when the
window elapses, a fully-confirmed or vanished action is just cleaned
up; otherwise the plurality of `mafia_votes` as it stands now is
committed to the `mafia_confirmed` ledger, the pending action is
deleted and the fallback is announced. -/
def mafia_confirm_timeout (g : GameState) (confirm_key : String) : TimeoutOutcome :=
  match pendingLookup g confirm_key with
  | none => { g := g, announced := false }
  | some rec =>
    if (aliveMafiaIds g).all (fun m => rec.confirmations.contains m) then
      { g := deletePending g confirm_key, announced := false }
    else if g.mafia_votes.isEmpty then
      { g := deletePending g confirm_key, announced := false }
    else
      match mostCommon (g.mafia_votes.map (fun kv => kv.2)) with
      | some t =>
        { g := deletePending
            { g with night_actions :=
                { g.night_actions with mafia_confirmed :=
                    g.night_actions.mafia_confirmed ++ [(0, t)] } }
            confirm_key
          announced := true }
      | none => { g := deletePending g confirm_key, announced := false }

/-- A timer armed by `reschedule_jobs_on_startup`. -/
structure ScheduledJob where
  chat_id : Nat
  jobname : String
  delay : Int
deriving DecidableEq, Repr

/-- Model of `remaining = deadline - now; if remaining < 0: remaining = 1`
(`main.py` lines 1064-1074, identically `game_manager.py`
lines 725-737). -/
def computeRemaining (deadline now : Int) : Int :=
  if deadline - now < 0 then 1 else deadline - now

/-- The phase-expiry timers armed by `reschedule_jobs_on_startup` for
one persisted session: a night or day session with a truthy stored
deadline gets its end-of-phase callback after `computeRemaining`
seconds (the repeating reminder job is not modelled). -/
def rescheduleFor (g : GameState) (now : Int) : List ScheduledJob :=
  if g.phase = "night" then
    match g.phase_deadline with
    | some d => if d ≠ 0 then [⟨g.chat_id, "night_end", computeRemaining (Int.ofNat d) now⟩] else []
    | none => []
  else if g.phase = "day" then
    match g.phase_deadline with
    | some d => if d ≠ 0 then [⟨g.chat_id, "day_end", computeRemaining (Int.ofNat d) now⟩] else []
    | none => []
  else []

/-- Translation of `reschedule_jobs_on_startup` over all loaded sessions. -/
def reschedule_jobs_on_startup (games : List GameState) (now : Int) : List ScheduledJob :=
  games.foldl (fun acc g => acc ++ rescheduleFor g now) []

/-- A living player with an assigned role, for concrete scenarios. -/
def mkPlayer (uid : Nat) (nm : String) (rk : String) : Nat × PlayerState :=
  (uid, { user_id := uid, name := nm, role_key := some rk, alive := true,
          blocked := false, silenced := false })

/-- A lobby player before role assignment. -/
def mkBarePlayer (uid : Nat) (nm : String) : Nat × PlayerState :=
  (uid, { user_id := uid, name := nm, role_key := none, alive := true,
          blocked := false, silenced := false })

/-- A fresh session around a fixed player table (defaults as in
`models.GameState`). -/
def baseGame (ps : List (Nat × PlayerState)) : GameState :=
  { chat_id := 100, host_id := 1, phase := "night",
    roles_config := [("mafia", 1), ("ciudadano", 3)],
    night_seconds := 300, day_seconds := 600, periodic_reminder_seconds := 120,
    phase_deadline := none, players := ps,
    night_actions := NightActions.empty, mafia_votes := [],
    pending_action_callbacks := [] }

/-- Scenario A: 5 players with roles mafia, doctor and three
ciudadanos; the mafia (player 1) targets player 3, the doctor
(player 2) heals player 3. -/
def scenarioAGame : GameState :=
  { baseGame [mkPlayer 1 "Ana" "mafia", mkPlayer 2 "Benito" "doctor",
      mkPlayer 3 "Carlos" "ciudadano", mkPlayer 4 "Diana" "ciudadano",
      mkPlayer 5 "Elena" "ciudadano"] with
    roles_config := [("mafia", 1), ("doctor", 1), ("ciudadano", 3)]
    mafia_votes := [(1, 3)]
    night_actions := { NightActions.empty with heal := [(2, 3)] } }

/-- A night state whose `mafia_confirmed` ledger entry (player 3) and
plurality of `mafia_votes` (player 2) disagree. -/
def confirmedIgnoredGame : GameState :=
  { baseGame [mkPlayer 1 "Ana" "mafia", mkPlayer 2 "Berta" "ciudadano",
      mkPlayer 3 "Carla" "ciudadano", mkPlayer 4 "Dario" "ciudadano",
      mkPlayer 5 "Elia" "ciudadano"] with
    mafia_votes := [(1, 2)]
    night_actions := { NightActions.empty with mafia_confirmed := [(0, 3)] } }

/-- A voting-phase session of six players with a 3-2 day vote for
player 4 over player 1. -/
def votingGame : GameState :=
  { baseGame [mkPlayer 1 "Ana" "mafia", mkPlayer 2 "Bruno" "ciudadano",
      mkPlayer 3 "Clara" "ciudadano", mkPlayer 4 "David" "ciudadano",
      mkPlayer 5 "Eva" "ciudadano", mkPlayer 6 "Felix" "ciudadano"] with
    phase := "voting"
    night_actions :=
      { NightActions.empty with vote := [(2, 4), (3, 4), (5, 4), (4, 1), (6, 1)] } }

/-- The same session with a 2-2 tie between players 4 and 1. -/
def tieVoteGame : GameState :=
  { votingGame with night_actions :=
      { NightActions.empty with vote := [(2, 4), (3, 4), (4, 1), (5, 1)] } }

/-- Two mafia members who have both voted (1 → 3, 2 → 4). -/
def mafiaPairGame : GameState :=
  { baseGame [mkPlayer 1 "Ana" "mafia", mkPlayer 2 "Beto" "mafia",
      mkPlayer 3 "Caro" "ciudadano", mkPlayer 4 "Dani" "ciudadano"] with
    mafia_votes := [(1, 3), (2, 4)] }

/-- The same session once the shared `mafia_confirm` pending action is
outstanding with no confirmations yet. -/
def mafiaConfirmPendingGame : GameState :=
  { mafiaPairGame with pending_action_callbacks :=
      [("ck", { action := "mafia_confirm", actor := none, target := some 3,
                confirmations := [], message_id := 0, expires_at := some 1060 })] }

/-- Four players still in the lobby, before role assignment. -/
def lobbyGame4 : GameState :=
  { baseGame [mkBarePlayer 1 "Ana", mkBarePlayer 2 "Bruno",
      mkBarePlayer 3 "Clara", mkBarePlayer 4 "David"] with
    phase := "lobby"
    roles_config := [("mafia", 1), ("doctor", 1)] }

/-- Three lobby players with an oversubscribed role config
(`mafia: 2, doctor: 2`). -/
def overflowGame : GameState :=
  { baseGame [mkBarePlayer 1 "Ana", mkBarePlayer 2 "Bruno", mkBarePlayer 3 "Clara"] with
    phase := "lobby"
    roles_config := [("mafia", 2), ("doctor", 2)] }

/-- A voting session with an open group-vote pending action. -/
def votePendingGame : GameState :=
  { votingGame with
    night_actions := NightActions.empty
    pending_action_callbacks :=
      [("vk", { action := "vote_group", actor := none, target := some 4,
                confirmations := [], message_id := 0, expires_at := some 1060 })] }

/-- A session with a `heal` pending action addressed to player 1 that
expires at time 10. -/
def healPendingGame : GameState :=
  { baseGame [mkPlayer 1 "Ana" "doctor", mkPlayer 2 "Bruno" "ciudadano",
      mkPlayer 3 "Clara" "ciudadano", mkPlayer 4 "David" "mafia"] with
    pending_action_callbacks :=
      [("k8", { action := "heal", actor := some 1, target := some 2,
                confirmations := [], message_id := 0, expires_at := some 10 })] }

/-- A persisted night session whose stored deadline equals the current
time 50. -/
def nightDeadlineGame : GameState :=
  { baseGame [mkPlayer 1 "Ana" "mafia", mkPlayer 2 "Bruno" "ciudadano",
      mkPlayer 3 "Clara" "ciudadano", mkPlayer 4 "David" "ciudadano"] with
    phase_deadline := some 50 }

/-- Scenario A's session with player 5 already dead. -/
def deadPlayerGame : GameState :=
  { scenarioAGame with players :=
      [mkPlayer 1 "Ana" "mafia", mkPlayer 2 "Benito" "doctor",
        mkPlayer 3 "Carlos" "ciudadano", mkPlayer 4 "Diana" "ciudadano",
        (5, { user_id := 5, name := "Elena", role_key := some "ciudadano",
              alive := false, blocked := false, silenced := false })] }

/-- Player `uid` is recorded as dead in this player table. -/
def deadAt (players : List (Nat × PlayerState)) (uid : Nat) : Prop :=
  ∃ p, lookupPlayer players uid = some p ∧ p.alive = false

/-- The effective assignment of `zip(ids, pool)` applied left to right:
a later pair for the same id overwrites an earlier one. -/
def assignLookup (pairs : List (Nat × String)) (uid : Nat) : Option String :=
  pairs.foldl (fun acc pr => if pr.1 = uid then some pr.2 else acc) none

/-- The pointwise effect of `assignPairs`: each player ends up with the
last role zipped onto their id, if any. -/
def assignFun (pairs : List (Nat × String)) (up : Nat × PlayerState) : Nat × PlayerState :=
  match assignLookup pairs up.1 with
  | some rk => (up.1, { up.2 with role_key := some rk })
  | none => up

/-- The total number of configured role slots (clamped at zero, as in
`max(0, c)`). -/
def configTotal (cfg : List (String × Int)) : Nat :=
  cfg.foldl (fun acc rc => acc + rc.2.toNat) 0

/-- The `base` part of the role pool, before ciudadano padding. -/
def poolBase (cfg : List (String × Int)) : List String :=
  cfg.foldl (fun acc rc => acc ++ List.replicate rc.2.toNat rc.1) []

/-! ### Helper lemmas about the Counter model -/

theorem foldl_mostCommon_step (c : Nat → Nat) :
    ∀ (l : List Nat) (o : Option Nat),
      l.foldl
        (fun best v =>
          match best with
          | none => some v
          | some b => if c b < c v then some v else some b) o
        = l.foldl (List.argAux fun b v => c v < c b) o := by
  intro l
  induction l with
  | nil => intro o; rfl
  | cons a l ih =>
    intro o
    have h : (match o with
        | none => some a
        | some b => if c b < c a then some a else some b)
        = List.argAux (fun b v => c v < c b) o a := by
      cases o with
      | none => rfl
      | some b => simp [List.argAux]
    rw [List.foldl_cons, List.foldl_cons]
    rw [h]
    exact ih _

/-- Fact that `mostCommon` is exactly Mathlib's `argmax` of the multiplicity. -/
theorem mostCommon_eq_argmax (vs : List Nat) :
    mostCommon vs = vs.argmax (fun v => vs.count v) := by
  unfold mostCommon List.argmax
  exact foldl_mostCommon_step (fun v => vs.count v) vs none

/-- Fact that `most_common(1)` picks a member of maximal multiplicity, and among
equal counts the value first registered (smallest index of first
occurrence). -/
theorem mostCommon_spec {vs : List Nat} {t : Nat} (h : mostCommon vs = some t) :
    t ∈ vs ∧ (∀ v ∈ vs, vs.count v ≤ vs.count t) ∧
      ∀ v ∈ vs, vs.count t ≤ vs.count v → vs.indexOf t ≤ vs.indexOf v := by
  rw [mostCommon_eq_argmax] at h
  have hm : t ∈ vs.argmax (fun v => vs.count v) := h
  exact ⟨List.argmax_mem hm, fun v hv => List.le_of_mem_argmax hv hm,
    fun v hv hc => List.index_of_argmax hm hv hc⟩

theorem mostCommon_eq_none_iff (vs : List Nat) : mostCommon vs = none ↔ vs = [] := by
  rw [mostCommon_eq_argmax]
  exact List.argmax_eq_none

theorem mostCommon_isSome {vs : List Nat} (h : vs ≠ []) : (mostCommon vs).isSome := by
  cases hm : mostCommon vs with
  | none => exact absurd ((mostCommon_eq_none_iff vs).1 hm) h
  | some t => rfl

theorem mem_uniqAux (x : Nat) :
    ∀ (vs acc : List Nat), x ∈ uniqAux acc vs ↔ x ∈ acc ∨ x ∈ vs := by
  intro vs
  induction vs with
  | nil => intro acc; simp [uniqAux]
  | cons v vs ih =>
    intro acc
    simp only [uniqAux]
    split
    · rename_i hc
      have hv : v ∈ acc := by simpa using hc
      rw [ih]
      simp only [List.mem_cons]
      constructor
      · rintro (h | h)
        · exact Or.inl h
        · exact Or.inr (Or.inr h)
      · rintro (h | h | h)
        · exact Or.inl h
        · exact Or.inl (h ▸ hv)
        · exact Or.inr h
    · rw [ih]
      simp only [List.mem_append, List.mem_singleton, List.mem_cons]
      tauto

theorem nodup_uniqAux :
    ∀ (vs acc : List Nat), acc.Nodup → (uniqAux acc vs).Nodup := by
  intro vs
  induction vs with
  | nil => intro acc h; exact h
  | cons v vs ih =>
    intro acc h
    simp only [uniqAux]
    split
    · exact ih acc h
    · rename_i hc
      have hv : v ∉ acc := by simpa using hc
      exact ih (acc ++ [v]) (by simp [List.nodup_append, h, hv])

theorem mem_uniqVals (x : Nat) (vs : List Nat) : x ∈ uniqVals vs ↔ x ∈ vs := by
  unfold uniqVals
  rw [mem_uniqAux]
  simp

theorem nodup_uniqVals (vs : List Nat) : (uniqVals vs).Nodup :=
  nodup_uniqAux vs [] List.nodup_nil

/-! ### Helper lemmas about the player table -/

theorem lookup_map_keyed (f : Nat → PlayerState → PlayerState) :
    ∀ (ps : List (Nat × PlayerState)) (uid : Nat),
      lookupPlayer (ps.map (fun up => (up.1, f up.1 up.2))) uid
        = (lookupPlayer ps uid).map (f uid) := by
  intro ps
  induction ps with
  | nil => intro uid; rfl
  | cons a ps ih =>
    intro uid
    obtain ⟨k, v⟩ := a
    simp only [List.map_cons, lookupPlayer, List.lookup]
    by_cases h : uid = k
    · subst h; simp
    · have hb : (uid == k) = false := by simpa using h
      simp only [hb]
      exact ih uid

theorem setAlive_eq_map_keyed (ps : List (Nat × PlayerState)) (uid : Nat) (v : Bool) :
    setAlive ps uid v
      = ps.map (fun up =>
          (up.1, (fun u p => if u == uid then { p with alive := v } else p) up.1 up.2)) := by
  unfold setAlive
  apply List.map_congr_left
  intro up _
  by_cases h : up.1 == uid <;> simp [h]

theorem lookup_setAlive (ps : List (Nat × PlayerState)) (uid : Nat) (v : Bool) (u : Nat) :
    lookupPlayer (setAlive ps uid v) u
      = (lookupPlayer ps u).map (fun p => if u == uid then { p with alive := v } else p) := by
  rw [setAlive_eq_map_keyed]
  exact lookup_map_keyed (fun u p => if u == uid then { p with alive := v } else p) ps u

theorem lookup_setAlive_self (ps : List (Nat × PlayerState)) (uid : Nat) (v : Bool) :
    lookupPlayer (setAlive ps uid v) uid
      = (lookupPlayer ps uid).map (fun p => { p with alive := v }) := by
  rw [lookup_setAlive]
  simp

theorem lookup_setAlive_ne (ps : List (Nat × PlayerState)) (uid : Nat) (v : Bool) (u : Nat)
    (h : u ≠ uid) :
    lookupPlayer (setAlive ps uid v) u = lookupPlayer ps u := by
  rw [lookup_setAlive]
  have hb : (u == uid) = false := by simpa using h
  simp [hb]

theorem setSilenced_eq_map_keyed (ps : List (Nat × PlayerState)) (uid : Nat) (v : Bool) :
    setSilenced ps uid v
      = ps.map (fun up =>
          (up.1, (fun u p => if u == uid then { p with silenced := v } else p) up.1 up.2)) := by
  unfold setSilenced
  apply List.map_congr_left
  intro up _
  by_cases h : up.1 == uid <;> simp [h]

theorem applyBlocks_eq_map_keyed (ps : List (Nat × PlayerState)) (bl : List Nat) :
    applyBlocks ps bl
      = ps.map (fun up =>
          (up.1, (fun u p => if bl.contains u then { p with blocked := true } else p) up.1 up.2)) := by
  unfold applyBlocks
  apply List.map_congr_left
  intro up _
  cases hc : bl.contains up.1 <;> simp only [hc] <;> simp

theorem deadAt_map_keyed (f : Nat → PlayerState → PlayerState)
    (hf : ∀ u p, p.alive = false → (f u p).alive = false)
    (ps : List (Nat × PlayerState)) (u : Nat) (h : deadAt ps u) :
    deadAt (ps.map (fun up => (up.1, f up.1 up.2))) u := by
  obtain ⟨p, hl, hal⟩ := h
  refine ⟨f u p, ?_, hf u p hal⟩
  rw [lookup_map_keyed, hl]
  rfl

theorem deadAt_setAlive_false (ps : List (Nat × PlayerState)) (uid u : Nat)
    (h : deadAt ps u) : deadAt (setAlive ps uid false) u := by
  rw [setAlive_eq_map_keyed]
  exact deadAt_map_keyed (fun u p => if u == uid then { p with alive := false } else p)
    (by intro u' p hp; by_cases hc : (u' == uid) = true <;> simp [hc, hp]) ps u h

theorem deadAt_setSilenced (ps : List (Nat × PlayerState)) (uid : Nat) (v : Bool) (u : Nat)
    (h : deadAt ps u) : deadAt (setSilenced ps uid v) u := by
  rw [setSilenced_eq_map_keyed]
  exact deadAt_map_keyed (fun u p => if u == uid then { p with silenced := v } else p)
    (by intro u' p hp; by_cases hc : (u' == uid) = true <;> simp [hc, hp]) ps u h

theorem deadAt_applyBlocks (ps : List (Nat × PlayerState)) (bl : List Nat) (u : Nat)
    (h : deadAt ps u) : deadAt (applyBlocks ps bl) u := by
  rw [applyBlocks_eq_map_keyed]
  exact deadAt_map_keyed (fun u p => if bl.contains u then { p with blocked := true } else p)
    (by intro u' p hp; cases hc : bl.contains u' <;> simp at hc <;> simp [hc, hp]) ps u h

/-! ### Generic list helpers -/

theorem eq_singleton_of_nodup_allEq {l : List Nat} {c : Nat} (hnd : l.Nodup)
    (hall : ∀ x ∈ l, x = c) (hc : c ∈ l) : l = [c] := by
  cases l with
  | nil => cases hc
  | cons a t =>
    have ha : a = c := hall a (by simp)
    subst ha
    cases t with
    | nil => rfl
    | cons b t2 =>
      have hb : b = a := hall b (by simp)
      rw [List.nodup_cons] at hnd
      exact absurd (hb ▸ hnd.1) (by simp)

theorem one_lt_length_of_two_mem {l : List Nat} {a b : Nat} (ha : a ∈ l) (hb : b ∈ l)
    (hne : a ≠ b) : 1 < l.length := by
  cases l with
  | nil => cases ha
  | cons x t =>
    cases t with
    | nil =>
      simp only [List.mem_singleton] at ha hb
      exact absurd (ha.trans hb.symm) hne
    | cons y t2 => simp

theorem lookup_filter_key_ne (pending : List (String × PendingRec)) (key : String) :
    (pending.filter (fun kv => kv.1 != key)).lookup key = none := by
  induction pending with
  | nil => rfl
  | cons a t ih =>
    by_cases h : a.1 = key
    · have : (a.1 != key) = false := by simp [h]
      simp [List.filter_cons, this, ih]
    · have h1 : (a.1 != key) = true := by simp [h]
      have h2 : (key == a.1) = false := by simp [Ne.symm h]
      simp [List.filter_cons, h1, List.lookup, h2, ih]

theorem filter_key_ne_idem (pending : List (String × PendingRec)) (key : String) :
    (pending.filter (fun kv => kv.1 != key)).filter (fun kv => kv.1 != key)
      = pending.filter (fun kv => kv.1 != key) := by
  rw [List.filter_eq_self]
  intro a ha
  exact (List.mem_filter.1 ha).2

/-! ### C3 — win conditions -/

/-- C3: `checkWinConditions`, evaluated over currently-alive players
only, returns town-wins exactly when no mafia-faction member and no
neutral serial killer is alive; returns mafia-wins when at least one
mafia member is alive and the mafia alive count is at least the town
alive count; returns serial-killer-wins when the killer is alive and is
the sole survivor; checked in that priority order, and a lone surviving
neutral killer prevents a town win even when all mafia are dead. -/
theorem C3_win_conditions (g : GameState) :
    (check_win_conditions_sync g = some "town" ↔ aliveMafias g = [] ∧ aliveSerials g = [])
    ∧ (aliveMafias g ≠ [] → (aliveTowns g).length ≤ (aliveMafias g).length →
        check_win_conditions_sync g = some "mafia")
    ∧ (aliveSerials g ≠ [] → (alivePlayers g).length = 1 →
        check_win_conditions_sync g = some "serial")
    ∧ (aliveSerials g ≠ [] → check_win_conditions_sync g ≠ some "town") := by
  refine ⟨⟨?_, ?_⟩, ?_, ?_, ?_⟩
  · intro h
    unfold check_win_conditions_sync at h
    split_ifs at h with h1 h2 h3
    · rw [Bool.and_eq_true, List.isEmpty_iff, List.isEmpty_iff] at h1
      exact h1
    all_goals simp_all
  · rintro ⟨hm, hs⟩
    unfold check_win_conditions_sync
    simp [hm, hs]
  · intro hm hlen
    have hE : (aliveMafias g).isEmpty = false := by
      simpa [List.isEmpty_iff] using hm
    unfold check_win_conditions_sync
    simp [hE, hlen]
  · intro hs hone
    have hmn : aliveMafias g = [] := by
      by_contra hm
      obtain ⟨m, hm_mem⟩ := List.exists_mem_of_ne_nil _ hm
      obtain ⟨s, hs_mem⟩ := List.exists_mem_of_ne_nil _ hs
      have hmf := List.mem_filter.1 hm_mem
      have hsf := List.mem_filter.1 hs_mem
      have hmb := hmf.2
      have hsb := hsf.2
      simp only [Bool.and_eq_true, beq_iff_eq] at hmb hsb
      have hmA : m ∈ alivePlayers g :=
        List.mem_filter.2 ⟨hmf.1, hmb.1⟩
      have hsA : s ∈ alivePlayers g :=
        List.mem_filter.2 ⟨hsf.1, hsb.1⟩
      obtain ⟨x, hx⟩ := List.length_eq_one.1 hone
      rw [hx, List.mem_singleton] at hmA hsA
      have hms : m = s := hmA.trans hsA.symm
      have hfac : factionOf m = some Faction.mafia := hmb.2
      rw [hms] at hfac
      rw [show factionOf s = some Faction.neutral from by
        unfold factionOf; rw [hsb.2]; rfl] at hfac
      exact absurd (Option.some.inj hfac) (by decide)
    have hsE : (aliveSerials g).isEmpty = false := by
      simpa [List.isEmpty_iff] using hs
    unfold check_win_conditions_sync
    simp [hmn, hsE, hone]
  · intro hs
    have hsE : (aliveSerials g).isEmpty = false := by
      simpa [List.isEmpty_iff] using hs
    unfold check_win_conditions_sync
    rw [hsE]
    simp only [Bool.and_false]
    split_ifs <;> simp_all

/-- Witness for C3: two living mafiosi against two townsfolk is a
mafia win. -/
theorem C3_witness : check_win_conditions_sync mafiaPairGame = some "mafia" :=
  (C3_win_conditions mafiaPairGame).2.1 (by decide) (by decide)

/-! ### C9 — startup rescheduling delay -/

/-- C9 as stated is false: a stored deadline equal to the current time
is rearmed with delay `0`, not `max(1, deadline - now) = 1` (the code
only clamps a strictly negative remainder). -/
theorem C9_counterexample :
    nightDeadlineGame.phase = "night" ∧ nightDeadlineGame.phase_deadline = some 50
      ∧ reschedule_jobs_on_startup [nightDeadlineGame] 50
          = [{ chat_id := 100, jobname := "night_end", delay := 0 }]
      ∧ (0 : Int) ≠ max 1 ((50 : Int) - 50) := by
  refine ⟨rfl, rfl, by decide, by decide⟩

/-- C9 amended: the rescheduler arms the phase-expiry callback with
delay `deadline - now` when the deadline has not passed (which is `0`,
not `1`, when the deadline equals the current time) and with delay `1`
when the deadline already passed; so the delay equals
`max(1, deadline - now)` exactly when `deadline ≠ now`, and it is never
negative. -/
theorem C9_amended (g : GameState) (d : Nat) (now : Int)
    (hd : g.phase_deadline = some d) (h0 : d ≠ 0) :
    (g.phase = "night" →
      rescheduleFor g now = [⟨g.chat_id, "night_end", computeRemaining (d : Int) now⟩])
    ∧ (g.phase = "day" →
      rescheduleFor g now = [⟨g.chat_id, "day_end", computeRemaining (d : Int) now⟩])
    ∧ ((d : Int) < now → computeRemaining (d : Int) now = 1)
    ∧ (now ≤ (d : Int) → computeRemaining (d : Int) now = (d : Int) - now)
    ∧ ((d : Int) ≠ now → computeRemaining (d : Int) now = max 1 ((d : Int) - now))
    ∧ 0 ≤ computeRemaining (d : Int) now := by
  refine ⟨?_, ?_, ?_, ?_, ?_, ?_⟩
  · intro hph
    simp [rescheduleFor, hph, hd, h0]
  · intro hph
    have hph2 : g.phase ≠ "night" := by rw [hph]; decide
    simp [rescheduleFor, hph, hph2, hd, h0]
  · intro h
    unfold computeRemaining
    rw [if_pos (by omega)]
  · intro h
    unfold computeRemaining
    rw [if_neg (by omega)]
  · intro hne
    unfold computeRemaining
    split
    · rename_i hlt
      rw [max_eq_left (by omega)]
    · rename_i hge
      rw [max_eq_right (by omega)]
  · unfold computeRemaining
    split <;> omega

/-- Witness for C9 amended: ten seconds of remaining deadline are
rearmed as a ten-second delay. -/
theorem C9_witness :
    rescheduleFor nightDeadlineGame 40
      = [{ chat_id := 100, jobname := "night_end", delay := 10 }] := by
  have h := (C9_amended nightDeadlineGame 50 40 rfl (by decide)).1 rfl
  rw [h]
  decide

/-! ### C1 — the mafia collective target in resolveNight -/

/-- C1 as stated is false: `resolve_night` never reads the
`mafia_confirmed` ledger entry.  Here the ledger holds the confirmed
target 3 while the plurality of `mafia_votes` is 2, and the resolution
kills player 2 and leaves player 3 alive. -/
theorem C1_counterexample :
    confirmedIgnoredGame.night_actions.mafia_confirmed = [(0, 3)]
      ∧ ((resolve_night confirmedIgnoredGame).g.players.lookup 2).map (fun p => p.alive)
          = some false
      ∧ ((resolve_night confirmedIgnoredGame).g.players.lookup 3).map (fun p => p.alive)
          = some true := by
  refine ⟨rfl, by decide, by decide⟩

/-- Helper: only the single optional mafia attack carries the
`"mafia"` kind tag. -/
theorem buildAttacks_filter_mafia (g : GameState) :
    (buildAttacks g).filter (fun a => a.2.2 == "mafia")
      = match mafiaAttackOpt g with
        | some st => [(st.1, st.2, "mafia")]
        | none => [] := by
  cases h : mafiaAttackOpt g <;>
    simp [buildAttacks, h, List.filter_append, List.filter_map, Function.comp]

/-- C1 amended: `resolveNight` ignores the `mafia_confirmed` ledger
entirely; the mafia collective target is always the plurality of
`mafiaVotes`; at most one mafia attack is enqueued, sourced from an
alive, unblocked mafia-roled actor, and none is enqueued when no such
actor exists or when no mafia votes were cast. -/
theorem C1_amended (g : GameState) :
    (∀ l, resolve_night
        { g with night_actions := { g.night_actions with mafia_confirmed := l } }
        = resolve_night g)
    ∧ ((buildAttacks g).filter (fun a => a.2.2 == "mafia")).length ≤ 1
    ∧ (∀ s t, mafiaAttackOpt g = some (s, t) →
        (buildAttacks g).filter (fun a => a.2.2 == "mafia") = [(s, t, "mafia")]
        ∧ mostCommon (mafiaVoteVals g) = some t
        ∧ (∀ v ∈ mafiaVoteVals g, (mafiaVoteVals g).count v ≤ (mafiaVoteVals g).count t)
        ∧ ∃ p, (s, p) ∈ g.players ∧ p.alive = true ∧ p.blocked = false
            ∧ (p.role_key = some "mafia" ∨ p.role_key = some "padrino"
                ∨ p.role_key = some "consorte"))
    ∧ (mafiaSource g.players = none →
        (buildAttacks g).filter (fun a => a.2.2 == "mafia") = [])
    ∧ (g.mafia_votes = [] →
        (buildAttacks g).filter (fun a => a.2.2 == "mafia") = []) := by
  refine ⟨fun _ => rfl, ?_, ?_, ?_, ?_⟩
  · rw [buildAttacks_filter_mafia]
    cases mafiaAttackOpt g <;> simp
  · intro s t h
    have hspec : mafiaTarget g = some t ∧ mafiaSource g.players = some s := by
      unfold mafiaAttackOpt at h
      cases hmt : mafiaTarget g with
      | none => rw [hmt] at h; cases h
      | some t' =>
        rw [hmt] at h
        dsimp only at h
        by_cases h0 : t' = 0
        · rw [if_pos h0] at h; cases h
        · rw [if_neg h0] at h
          cases hsrc : mafiaSource g.players with
          | none => rw [hsrc] at h; cases h
          | some s' =>
            rw [hsrc] at h
            dsimp only at h
            obtain ⟨rfl, rfl⟩ : s' = s ∧ t' = t := by
              have := Option.some.inj h
              exact ⟨congrArg Prod.fst this, congrArg Prod.snd this⟩
            exact ⟨rfl, rfl⟩
    obtain ⟨hmt, hsrc⟩ := hspec
    have hmc : mostCommon (mafiaVoteVals g) = some t := hmt
    have hplural := mostCommon_spec hmc
    refine ⟨?_, hmc, hplural.2.1, ?_⟩
    · rw [buildAttacks_filter_mafia, h]
    · unfold mafiaSource at hsrc
      obtain ⟨up, hfind, hup1⟩ := Option.map_eq_some'.1 hsrc
      have hmem := List.mem_of_find?_eq_some hfind
      have hpred := List.find?_some hfind
      simp only [Bool.and_eq_true, Bool.or_eq_true, beq_iff_eq, Bool.not_eq_true'] at hpred
      refine ⟨up.2, ?_, hpred.1.2, hpred.2, ?_⟩
      · rw [← hup1]
        simpa using hmem
      · rcases hpred.1.1 with (h | h) | h
        · exact Or.inl h
        · exact Or.inr (Or.inl h)
        · exact Or.inr (Or.inr h)
  · intro hs
    have hnone : mafiaAttackOpt g = none := by
      unfold mafiaAttackOpt
      cases hmt : mafiaTarget g with
      | none => rfl
      | some t' =>
        dsimp only
        by_cases h0 : t' = 0
        · rw [if_pos h0]
        · rw [if_neg h0, hs]
    rw [buildAttacks_filter_mafia, hnone]
  · intro hv
    have hnone : mafiaAttackOpt g = none := by
      unfold mafiaAttackOpt mafiaTarget
      rw [hv]
      rfl
    rw [buildAttacks_filter_mafia, hnone]

/-- Witness for C1 amended: in the counterexample state the one mafia
attack is sourced from player 1 against the plurality target 2. -/
theorem C1_witness :
    (buildAttacks confirmedIgnoredGame).filter (fun a => a.2.2 == "mafia")
        = [(1, 2, "mafia")]
      ∧ mostCommon (mafiaVoteVals confirmedIgnoredGame) = some 2 :=
  ⟨((C1_amended confirmedIgnoredGame).2.2.1 1 2 (by decide)).1,
   ((C1_amended confirmedIgnoredGame).2.2.1 1 2 (by decide)).2.1⟩

/-! ### C2 — day-vote resolution -/

/-- The win check never reads the phase field. -/
theorem check_win_set_phase (g : GameState) (p : String) :
    check_win_conditions_sync { g with phase := p } = check_win_conditions_sync g := rfl

/-- Shape of `resolve_votes_job` once the tally is non-empty. -/
theorem resolve_votes_eval (g : GameState) (c : Nat)
    (hne : (dayVotes g).isEmpty = false)
    (hmost : mostCommon (dayVotes g) = some c) :
    (resolve_votes_job g).g.players = (lynchStep g c).1.players
    ∧ (∀ m ∈ (lynchStep g c).2, m ∈ (resolve_votes_job g).msgs)
    ∧ (check_win_conditions_sync (resolve_votes_job g).g = none →
        (resolve_votes_job g).g.phase = "night") := by
  unfold resolve_votes_job
  rw [hne, hmost]
  simp only [Bool.false_eq_true, if_false]
  cases hwin : check_win_conditions_sync (lynchStep g c).1 with
  | some w =>
    dsimp only
    refine ⟨rfl, ?_, ?_⟩
    · intro m hm
      exact List.mem_append_left _ hm
    · intro hnone
      rw [show check_win_conditions_sync
          { (lynchStep g c).1 with phase := "inactive" }
          = check_win_conditions_sync (lynchStep g c).1 from rfl, hwin] at hnone
      cases hnone
  | none =>
    dsimp only
    refine ⟨rfl, ?_, fun _ => rfl⟩
    intro m hm
    exact List.mem_append_left _ hm

/-- A strict plurality makes `top` the singleton of the chosen target. -/
theorem voteTop_singleton (g : GameState) (c : Nat) (hc : c ∈ dayVotes g)
    (hstrict : ∀ v ∈ dayVotes g, v ≠ c →
      (dayVotes g).count v < (dayVotes g).count c) :
    mostCommon (dayVotes g) = some c ∧ voteTop g c = [c] := by
  have hne : dayVotes g ≠ [] := fun h => by rw [h] at hc; cases hc
  obtain ⟨m, hm⟩ := Option.isSome_iff_exists.1 (mostCommon_isSome hne)
  have hspec := mostCommon_spec hm
  have hmc : m = c := by
    by_contra hmc
    have h1 := hstrict m hspec.1 hmc
    have h2 := hspec.2.1 c hc
    omega
  subst hmc
  refine ⟨hm, ?_⟩
  apply eq_singleton_of_nodup_allEq
  · exact (nodup_uniqVals _).filter _
  · intro x hx
    obtain ⟨hxu, hxc⟩ := List.mem_filter.1 hx
    have hxv : x ∈ dayVotes g := (mem_uniqVals _ _).1 hxu
    by_contra hxne
    have h3 := hstrict x hxv hxne
    have hcnt : (dayVotes g).count x = (dayVotes g).count m := by simpa using hxc
    omega
  · exact List.mem_filter.2 ⟨(mem_uniqVals _ _).2 hc, by simp⟩

/-- C2: for a voting-phase session, a strict plurality lynches its
target (dead afterwards, role revealed in the announcement); a tie
among the top count, or an empty tally, lynches nobody; and in every
case the phase afterwards is `night` unless a win condition is met. -/
theorem C2_day_vote (g : GameState) (_hph : g.phase = "voting") :
    (∀ c p, c ∈ dayVotes g →
        (∀ v ∈ dayVotes g, v ≠ c → (dayVotes g).count v < (dayVotes g).count c) →
        lookupPlayer g.players c = some p →
        (∃ q, lookupPlayer (resolve_votes_job g).g.players c = some q ∧ q.alive = false)
          ∧ (p.alive = true →
              lynchMsg p.name (roleDisplayName p.role_key) ∈ (resolve_votes_job g).msgs))
    ∧ (∀ t1 t2, t1 ∈ dayVotes g → t2 ∈ dayVotes g → t1 ≠ t2 →
        (dayVotes g).count t1 = (dayVotes g).count t2 →
        (∀ v ∈ dayVotes g, (dayVotes g).count v ≤ (dayVotes g).count t1) →
        (resolve_votes_job g).g.players = g.players
          ∧ "Empate en la votación. No se lincha a nadie." ∈ (resolve_votes_job g).msgs)
    ∧ (dayVotes g = [] →
        (resolve_votes_job g).g.players = g.players
          ∧ (resolve_votes_job g).g.phase = "night")
    ∧ (check_win_conditions_sync (resolve_votes_job g).g = none →
        (resolve_votes_job g).g.phase = "night") := by
  refine ⟨?_, ?_, ?_, ?_⟩
  · intro c p hc hstrict hlook
    obtain ⟨hmost, htop⟩ := voteTop_singleton g c hc hstrict
    have hne : dayVotes g ≠ [] := fun h => by rw [h] at hc; cases hc
    have hEf : (dayVotes g).isEmpty = false := by
      cases hE : (dayVotes g).isEmpty
      · rfl
      · exact absurd (List.isEmpty_iff.1 hE) hne
    obtain ⟨hpl, hmsgs, _⟩ := resolve_votes_eval g c hEf hmost
    have hnotie : ¬(1 < (voteTop g c).length) := by rw [htop]; simp
    cases hal : p.alive with
    | true =>
      have hstep : lynchStep g c
          = ({ g with players := setAlive g.players c false },
             [lynchMsg p.name (roleDisplayName p.role_key)]) := by
        unfold lynchStep
        rw [if_neg hnotie, hlook]
        dsimp only
        rw [if_pos hal]
      constructor
      · refine ⟨{ p with alive := false }, ?_, rfl⟩
        rw [hpl, hstep]
        dsimp only
        rw [lookup_setAlive_self, hlook]
        rfl
      · intro _
        apply hmsgs
        rw [hstep]
        simp
    | false =>
      have hstep : lynchStep g c = (g, []) := by
        unfold lynchStep
        rw [if_neg hnotie, hlook]
        dsimp only
        rw [if_neg (by rw [hal]; decide)]
      refine ⟨⟨p, ?_, hal⟩, ?_⟩
      · rw [hpl, hstep]
        exact hlook
      · intro hal2
        exact absurd hal2 (by simp [hal])
  · intro t1 t2 ht1 ht2 hne12 hcnt hmax
    have hne : dayVotes g ≠ [] := fun h => by rw [h] at ht1; cases ht1
    have hEf : (dayVotes g).isEmpty = false := by
      cases hE : (dayVotes g).isEmpty
      · rfl
      · exact absurd (List.isEmpty_iff.1 hE) hne
    obtain ⟨m, hm⟩ := Option.isSome_iff_exists.1 (mostCommon_isSome hne)
    have hspec := mostCommon_spec hm
    have hcm : (dayVotes g).count m = (dayVotes g).count t1 :=
      Nat.le_antisymm (hmax m hspec.1) (hspec.2.1 t1 ht1)
    have hmem1 : t1 ∈ voteTop g m :=
      List.mem_filter.2 ⟨(mem_uniqVals _ _).2 ht1, by simp [hcm]⟩
    have hmem2 : t2 ∈ voteTop g m :=
      List.mem_filter.2 ⟨(mem_uniqVals _ _).2 ht2, by simp [hcm, hcnt]⟩
    have htie : 1 < (voteTop g m).length :=
      one_lt_length_of_two_mem hmem1 hmem2 hne12
    have hstep : lynchStep g m = (g, ["Empate en la votación. No se lincha a nadie."]) := by
      unfold lynchStep
      rw [if_pos htie]
    obtain ⟨hpl, hmsgs, _⟩ := resolve_votes_eval g m hEf hm
    refine ⟨by rw [hpl, hstep], ?_⟩
    apply hmsgs
    rw [hstep]
    simp
  · intro hv
    have hEt : (dayVotes g).isEmpty = true := by rw [hv]; rfl
    unfold resolve_votes_job
    rw [hEt]
    exact ⟨rfl, rfl⟩
  · intro hnone
    cases hE : (dayVotes g).isEmpty with
    | true =>
      unfold resolve_votes_job
      rw [hE]
      rfl
    | false =>
      have hne : dayVotes g ≠ [] := by
        intro h
        rw [h] at hE
        simp at hE
      obtain ⟨m, hm⟩ := Option.isSome_iff_exists.1 (mostCommon_isSome hne)
      exact (resolve_votes_eval g m hE hm).2.2 hnone

/-- Witness for C2: the 3-2 day vote lynches player 4 (role revealed)
and the tie lynches nobody; both continue to night. -/
theorem C2_witness :
    (∃ q, lookupPlayer (resolve_votes_job votingGame).g.players 4 = some q
        ∧ q.alive = false)
      ∧ lynchMsg "David" "Ciudadano" ∈ (resolve_votes_job votingGame).msgs
      ∧ (resolve_votes_job tieVoteGame).g.players = tieVoteGame.players
      ∧ (resolve_votes_job votingGame).g.phase = "night" := by
  have h4 := (C2_day_vote votingGame rfl).1 4
    { user_id := 4, name := "David", role_key := some "ciudadano",
      alive := true, blocked := false, silenced := false }
    (by decide) (by decide) (by decide)
  have htie := (C2_day_vote tieVoteGame rfl).2.1 4 1 (by decide) (by decide)
    (by decide) (by decide) (by decide)
  have hph := (C2_day_vote votingGame rfl).2.2.2 (by decide)
  exact ⟨h4.1, h4.2 rfl, htie.1, hph⟩

/-! ### C4 — attack application -/

/-- C4: attacks are applied in enqueue order, and each attack skips a
dead or unknown target, is negated by a heal, redirects onto a living
guard (who dies while the intended target survives), and otherwise
kills the target revealing their role in the summary line; in
Scenario A (5 players `{mafia: 1, doctor: 1, ciudadano: 3}`, mafia
targets X, doctor heals X) nobody dies and the summary reports that X
survived an attack. -/
theorem C4_attack_resolution :
    (∀ heals guards s atk atks,
        applyAttacks heals guards s (atk :: atks)
          = applyAttacks heals guards (applyAttack heals guards s atk) atks)
    ∧ (∀ heals guards s a t k, lookupPlayer s.players t = none →
        applyAttack heals guards s (a, t, k) = s)
    ∧ (∀ heals guards s a t k tp, lookupPlayer s.players t = some tp →
        tp.alive = false → applyAttack heals guards s (a, t, k) = s)
    ∧ (∀ heals guards s a t k tp, lookupPlayer s.players t = some tp →
        tp.alive = true → heals.contains t = true →
        applyAttack heals guards s (a, t, k)
          = { s with log := s.log ++ [healedLine tp.name] })
    ∧ (∀ heals guards s a t k tp gid gp, lookupPlayer s.players t = some tp →
        tp.alive = true → heals.contains t = false → guardFor guards t = some gid →
        lookupPlayer s.players gid = some gp → gp.alive = true →
        (applyAttack heals guards s (a, t, k)
            = { players := setAlive s.players gid false,
                deaths := s.deaths ++ [gid],
                log := s.log ++ [guardDiedLine gp.name tp.name] })
          ∧ (gid ≠ t → lookupPlayer (setAlive s.players gid false) t = some tp))
    ∧ (∀ heals guards s a t k tp, lookupPlayer s.players t = some tp →
        tp.alive = true → heals.contains t = false → guardFor guards t = none →
        applyAttack heals guards s (a, t, k)
          = { players := setAlive s.players t false,
              deaths := s.deaths ++ [t],
              log := s.log ++ [killedLine tp.name (roleDisplayName tp.role_key)] })
    ∧ (∀ heals guards s a t k tp gid, lookupPlayer s.players t = some tp →
        tp.alive = true → heals.contains t = false → guardFor guards t = some gid →
        (lookupPlayer s.players gid = none
          ∨ ∃ gp, lookupPlayer s.players gid = some gp ∧ gp.alive = false) →
        applyAttack heals guards s (a, t, k)
          = { players := setAlive s.players t false,
              deaths := s.deaths ++ [t],
              log := s.log ++ [killedLine tp.name (roleDisplayName tp.role_key)] })
    ∧ ((resolve_night scenarioAGame).deaths = []
        ∧ (resolve_night scenarioAGame).log = [healedLine "Carlos"]
        ∧ ∀ up ∈ (resolve_night scenarioAGame).g.players, up.2.alive = true) := by
  refine ⟨?_, ?_, ?_, ?_, ?_, ?_, ?_, by decide, by decide, by decide⟩
  · intro heals guards s atk atks
    rfl
  · intro heals guards s a t k hlook
    simp [applyAttack, hlook]
  · intro heals guards s a t k tp hlook hal
    simp [applyAttack, hlook, hal]
  · intro heals guards s a t k tp hlook hal hheal
    have hmem : t ∈ heals := by simpa using hheal
    simp [applyAttack, hlook, hal, hmem]
  · intro heals guards s a t k tp gid gp hlook hal hheal hguard hglook hgal
    have hmem : t ∉ heals := by simpa using hheal
    refine ⟨?_, ?_⟩
    · simp [applyAttack, hlook, hal, hmem, hguard, hglook, hgal]
    · intro hne
      rw [lookup_setAlive_ne _ _ _ _ (Ne.symm hne)]
      exact hlook
  · intro heals guards s a t k tp hlook hal hheal hguard
    have hmem : t ∉ heals := by simpa using hheal
    simp [applyAttack, killTarget, hlook, hal, hmem, hguard]
  · intro heals guards s a t k tp gid hlook hal hheal hguard hdead
    have hmem : t ∉ heals := by simpa using hheal
    rcases hdead with hnone | ⟨gp, hglook, hgal⟩
    · simp [applyAttack, killTarget, hlook, hal, hmem, hguard, hnone]
    · simp [applyAttack, killTarget, hlook, hal, hmem, hguard, hglook, hgal]

/-- Witness for C4: a healed living target survives, with only the
survived-an-attack line appended. -/
theorem C4_witness :
    applyAttack [3] [] ⟨[mkPlayer 3 "Carlos" "ciudadano"], [], []⟩ (1, 3, "mafia")
      = { players := [mkPlayer 3 "Carlos" "ciudadano"], deaths := [],
          log := [healedLine "Carlos"] } := by
  have h := C4_attack_resolution.2.2.2.1 [3] []
    ⟨[mkPlayer 3 "Carlos" "ciudadano"], [], []⟩ 1 3 "mafia"
    (mkPlayer 3 "Carlos" "ciudadano").2 (by decide) (by decide) (by decide)
  rw [h]
  decide

/-! ### C5 — mafia consensus protocol -/

/-- C5: once every living mafia member has voted, the plurality target
of `mafiaVotes` (ties broken by first-registered vote order) is
proposed through a single shared `mafia_confirm` pending action (empty
confirmation set, default 60-second window) sent to all mafia members;
and when the window expires before the confirmation set covers every
living mafia member, the fallback recomputes the plurality as it
stands at timeout, commits it to the `mafia_confirmed` ledger entry,
deletes the pending action and announces that unanimity failed. -/
theorem C5_mafia_consensus (g : GameState) (ck : String) (now : Nat)
    (hm : aliveMafiaIds g ≠ []) :
    ((∀ m ∈ aliveMafiaIds g, m ∈ g.mafia_votes.map (fun kv => kv.1)) →
      ∃ t, mostCommon (mafiaVoteVals g) = some t
        ∧ handle_mafia_votes_and_confirm g ck now
            = { g := { g with pending_action_callbacks :=
                  (upsertPending g.pending_action_callbacks ck
                    (⟨"mafia_confirm", none, some t, [], 0, some (now + 60)⟩ : PendingRec)) }
                started := true
                notified := aliveMafiaIds g }
        ∧ t ∈ mafiaVoteVals g
        ∧ (∀ v ∈ mafiaVoteVals g, (mafiaVoteVals g).count v ≤ (mafiaVoteVals g).count t)
        ∧ (∀ v ∈ mafiaVoteVals g,
            (mafiaVoteVals g).count t ≤ (mafiaVoteVals g).count v →
            (mafiaVoteVals g).indexOf t ≤ (mafiaVoteVals g).indexOf v))
    ∧ (∀ rec, pendingLookup g ck = some rec →
        ¬(∀ m ∈ aliveMafiaIds g, m ∈ rec.confirmations) →
        g.mafia_votes ≠ [] →
        ∃ t, mostCommon (mafiaVoteVals g) = some t
          ∧ mafia_confirm_timeout g ck
              = { g := deletePending
                    { g with night_actions :=
                        { g.night_actions with mafia_confirmed :=
                            g.night_actions.mafia_confirmed ++ [(0, t)] } } ck
                  announced := true }
          ∧ (∀ v ∈ mafiaVoteVals g,
              (mafiaVoteVals g).count v ≤ (mafiaVoteVals g).count t)) := by
  constructor
  · intro hall
    have hEm : (aliveMafiaIds g).isEmpty = false := by
      cases hE : (aliveMafiaIds g).isEmpty
      · rfl
      · exact absurd (List.isEmpty_iff.1 hE) hm
    have hallb : (aliveMafiaIds g).all
        (fun m => (g.mafia_votes.map (fun kv => kv.1)).contains m) = true := by
      rw [List.all_eq_true]
      intro m hmm
      simpa using hall m hmm
    have hvne : g.mafia_votes ≠ [] := by
      obtain ⟨m0, hm0⟩ := List.exists_mem_of_ne_nil _ hm
      have hk := hall m0 hm0
      intro hnil
      rw [hnil] at hk
      cases hk
    have hvals : mafiaVoteVals g ≠ [] := by
      unfold mafiaVoteVals
      simpa using hvne
    obtain ⟨t, ht⟩ := Option.isSome_iff_exists.1 (mostCommon_isSome hvals)
    have hspec := mostCommon_spec ht
    refine ⟨t, ht, ?_, hspec.1, hspec.2.1, hspec.2.2⟩
    unfold handle_mafia_votes_and_confirm
    rw [hEm, hallb]
    simp only [Bool.false_eq_true, if_false, Bool.not_true]
    rw [show mostCommon (g.mafia_votes.map (fun kv => kv.2)) = some t from ht]
  · intro rec hrec hnc hvne
    have hvals : mafiaVoteVals g ≠ [] := by
      unfold mafiaVoteVals
      simpa using hvne
    obtain ⟨t, ht⟩ := Option.isSome_iff_exists.1 (mostCommon_isSome hvals)
    have hspec := mostCommon_spec ht
    have hallb : (aliveMafiaIds g).all (fun m => rec.confirmations.contains m) = false := by
      cases hb : (aliveMafiaIds g).all (fun m => rec.confirmations.contains m)
      · rfl
      · exfalso
        apply hnc
        intro m hmm
        have hc := (List.all_eq_true.1 hb) m hmm
        simpa using hc
    have hEv : g.mafia_votes.isEmpty = false := by
      cases hE : g.mafia_votes.isEmpty
      · rfl
      · exact absurd (List.isEmpty_iff.1 hE) hvne
    refine ⟨t, ht, ?_, hspec.2.1⟩
    unfold mafia_confirm_timeout
    rw [hrec]
    dsimp only
    rw [hallb, hEv]
    simp only [Bool.false_eq_true, if_false]
    rw [show mostCommon (g.mafia_votes.map (fun kv => kv.2)) = some t from ht]

/-- Witness for C5: both mafiosi voted (1 → 3, 2 → 4); the tie breaks
to the first-registered target 3, one shared confirm action is created
for both members, and the zero-confirmation timeout commits (0, 3) and
announces the fallback. -/
theorem C5_witness :
    (handle_mafia_votes_and_confirm mafiaPairGame "ck" 1000).notified = [1, 2]
      ∧ pendingLookup (handle_mafia_votes_and_confirm mafiaPairGame "ck" 1000).g "ck"
          = some ⟨"mafia_confirm", none, some 3, [], 0, some 1060⟩
      ∧ (mafia_confirm_timeout mafiaConfirmPendingGame "ck").announced = true
      ∧ (mafia_confirm_timeout mafiaConfirmPendingGame "ck").g.night_actions.mafia_confirmed
          = [(0, 3)] := by
  obtain ⟨t, ht, heq, _⟩ :=
    (C5_mafia_consensus mafiaPairGame "ck" 1000 (by decide)).1 (by decide)
  have ht3 : t = 3 := Option.some.inj
    (ht.symm.trans (by decide : mostCommon (mafiaVoteVals mafiaPairGame) = some 3))
  subst ht3
  obtain ⟨t2, ht2, heq2, _⟩ :=
    (C5_mafia_consensus mafiaConfirmPendingGame "ck" 1000 (by decide)).2
      ⟨"mafia_confirm", none, some 3, [], 0, some 1060⟩ (by decide) (by decide) (by decide)
  have ht23 : t2 = 3 := Option.some.inj
    (ht2.symm.trans (by decide : mostCommon (mafiaVoteVals mafiaConfirmPendingGame) = some 3))
  subst ht23
  refine ⟨?_, ?_, ?_, ?_⟩
  · rw [heq]
    decide
  · rw [heq]
    decide
  · rw [heq2]
  · rw [heq2]
    decide

/-! ### C7 — group-vote replacement -/

/-- Replacement semantics of one group-vote response. -/
theorem filter_voteStep (votes : List (Nat × Nat)) (u t v : Nat) :
    (voteStep votes u t).filter (fun vt => vt.1 == v)
      = if v = u then [(u, t)] else votes.filter (fun vt => vt.1 == v) := by
  unfold voteStep
  rw [List.filter_append]
  by_cases hv : v = u
  · subst hv
    have h1 : (votes.filter (fun vt => vt.1 != v)).filter (fun vt => vt.1 == v) = [] := by
      rw [List.filter_filter]
      apply List.filter_eq_nil_iff.2
      intro a _
      by_cases ha : a.1 = v <;> simp [ha]
    rw [h1]
    simp
  · have h2 : ([(u, t)] : List (Nat × Nat)).filter (fun vt => vt.1 == v) = [] := by
      have hb : (u == v) = false := by
        cases hb2 : u == v
        · rfl
        · exact (hv (eq_of_beq hb2).symm).elim
      simp [hb]
    rw [h2, List.append_nil, List.filter_filter, if_neg hv]
    apply List.filter_congr
    intro a _
    by_cases hav : a.1 = v
    · have hne : a.1 ≠ u := by rw [hav]; exact hv
      simp [hav, hne, hv]
    · simp [hav]

/-- One response keeps the per-voter uniqueness of the vote ledger. -/
theorem voteStep_keys_nodup (votes : List (Nat × Nat)) (u t : Nat)
    (h : (votes.map (fun vt => vt.1)).Nodup) :
    ((voteStep votes u t).map (fun vt => vt.1)).Nodup := by
  unfold voteStep
  rw [List.map_append]
  rw [List.nodup_append]
  refine ⟨?_, by simp, ?_⟩
  · exact ((List.filter_sublist votes).map (fun vt => vt.1)).nodup h
  · intro x hx
    simp only [List.mem_map] at hx
    obtain ⟨a, ha, rfl⟩ := hx
    have := (List.mem_filter.1 ha).2
    simp only [bne_iff_ne, ne_eq] at this
    simp [this]

/-- C7: for the group day vote, each voter appears in at most one
(voter, target) pair of the ledger at every point: a response through
`respond` rewrites the ledger with `voteStep`, one `voteStep` replaces
the voter's earlier pair (last-write-wins) and leaves other voters'
pairs untouched, and any sequence of responses starting from the empty
ledger keeps voter keys unique. -/
theorem C7_group_vote_last_write_wins (g : GameState) (key : String) (rec : PendingRec)
    (user target now : Nat)
    (hrec : pendingLookup g key = some rec)
    (hact : rec.action = "vote_group")
    (hexp : ∀ e, rec.expires_at = some e → ¬(e ≠ 0 ∧ e < now))
    (hauth : rec.actor = none) :
    (respond g key user target now
        = ({ g with night_actions :=
              { g.night_actions with vote := voteStep g.night_actions.vote user target } },
           RespondOutcome.processed))
    ∧ (∀ votes u t v, (voteStep votes u t).filter (fun vt => vt.1 == v)
        = if v = u then [(u, t)] else votes.filter (fun vt => vt.1 == v))
    ∧ (∀ responses : List (Nat × Nat),
        (((responses.foldl (fun vs r => voteStep vs r.1 r.2) []).map
            (fun vt => vt.1))).Nodup) := by
  refine ⟨?_, filter_voteStep, ?_⟩
  · have hd : respondDispatch g key rec user target
        = { g with night_actions :=
            { g.night_actions with vote := voteStep g.night_actions.vote user target } } := by
      unfold respondDispatch
      rw [hact]
      rw [if_neg (by decide), if_neg (by decide), if_neg (by decide), if_neg (by decide),
        if_neg (by decide), if_neg (by decide), if_neg (by decide), if_neg (by decide),
        if_pos rfl]
    unfold respond
    rw [hrec]
    dsimp only
    cases he : rec.expires_at with
    | none =>
      dsimp only
      rw [hauth]
      dsimp only
      rw [hd]
    | some e =>
      dsimp only
      rw [if_neg (hexp e he), hauth]
      dsimp only
      rw [hd]
  · have hstep : ∀ (responses : List (Nat × Nat)) (votes : List (Nat × Nat)),
        (votes.map (fun vt => vt.1)).Nodup →
        (((responses.foldl (fun vs r => voteStep vs r.1 r.2) votes).map
            (fun vt => vt.1))).Nodup := by
      intro responses
      induction responses with
      | nil => intro votes h; exact h
      | cons r rs ih =>
        intro votes h
        rw [List.foldl_cons]
        exact ih _ (voteStep_keys_nodup votes r.1 r.2 h)
    intro responses
    exact hstep responses [] (by simp)

/-- Witness for C7: a second press by voter 2 replaces the earlier
pair instead of appending. -/
theorem C7_witness :
    (respond (respond votePendingGame "vk" 2 4 1000).1 "vk" 2 1 1001).1.night_actions.vote
      = [(2, 1)] := by
  have h1 := (C7_group_vote_last_write_wins votePendingGame "vk"
    { action := "vote_group", actor := none, target := some 4,
      confirmations := [], message_id := 0, expires_at := some 1060 }
    2 4 1000 (by decide) rfl
    (by intro e he; obtain rfl := Option.some.inj he; decide) rfl).1
  rw [h1]
  decide

/-! ### C8 — unauthorized and expired responses -/

/-- C8 as stated is false: the expiry check precedes the authorization
check, so responding to an expired action addressed to someone else
yields `Expired` (and deletes the action, changing the session), not
`Unauthorized` with an unchanged session. -/
theorem C8_counterexample :
    (pendingLookup healPendingGame "k8").map (fun r => r.actor) = some (some 1)
      ∧ (2 : Nat) ≠ 1
      ∧ (respond healPendingGame "k8" 2 3 20).2 = RespondOutcome.expired
      ∧ (respond healPendingGame "k8" 2 3 20).2 ≠ RespondOutcome.unauthorized
      ∧ (respond healPendingGame "k8" 2 3 20).1 ≠ healPendingGame := by
  refine ⟨by decide, by decide, by decide, by decide, by decide⟩

/-- C8 amended: for an *unexpired* pending action whose expectedActorId
is set and differs from the responder, `respond` fails Unauthorized and
leaves the session completely unchanged; an expired action fails
Expired and is lazily deleted, mutating nothing else; and expiring the
same key twice, or responding again after expiry, never mutates the
session a second time. -/
theorem C8_amended (g : GameState) (key : String) (rec : PendingRec)
    (user target now : Nat)
    (hrec : pendingLookup g key = some rec) :
    (∀ e a, rec.expires_at = some e → ¬(e ≠ 0 ∧ e < now) → rec.actor = some a →
      a ≠ 0 → a ≠ user →
      respond g key user target now = (g, RespondOutcome.unauthorized))
    ∧ (∀ a, rec.expires_at = none → rec.actor = some a → a ≠ 0 → a ≠ user →
      respond g key user target now = (g, RespondOutcome.unauthorized))
    ∧ (∀ e, rec.expires_at = some e → e ≠ 0 → e < now →
      respond g key user target now = (deletePending g key, RespondOutcome.expired))
    ∧ (expirePending (expirePending g key) key = expirePending g key)
    ∧ (∀ e, rec.expires_at = some e → e ≠ 0 → e < now →
      ∀ u2 t2 n2, respond (respond g key user target now).1 key u2 t2 n2
        = ((respond g key user target now).1, RespondOutcome.invalidKey)) := by
  have hdel : pendingLookup (deletePending g key) key = none := by
    unfold pendingLookup deletePending
    exact lookup_filter_key_ne g.pending_action_callbacks key
  refine ⟨?_, ?_, ?_, ?_, ?_⟩
  · intro e a he hne ha h0 hu
    unfold respond
    rw [hrec]
    dsimp only
    rw [he]
    dsimp only
    rw [if_neg hne, ha]
    dsimp only
    rw [if_pos ⟨h0, hu⟩]
  · intro a he ha h0 hu
    unfold respond
    rw [hrec]
    dsimp only
    rw [he]
    dsimp only
    rw [ha]
    dsimp only
    rw [if_pos ⟨h0, hu⟩]
  · intro e he h0 hlt
    unfold respond
    rw [hrec]
    dsimp only
    rw [he]
    dsimp only
    rw [if_pos ⟨h0, hlt⟩]
  · exact congrArg (fun x => { g with pending_action_callbacks := x })
      (filter_key_ne_idem g.pending_action_callbacks key)
  · intro e he h0 hlt u2 t2 n2
    have hexp : respond g key user target now
        = (deletePending g key, RespondOutcome.expired) := by
      unfold respond
      rw [hrec]
      dsimp only
      rw [he]
      dsimp only
      rw [if_pos ⟨h0, hlt⟩]
    rw [hexp]
    unfold respond
    rw [hdel]

/-! ### C6 — role assignment -/

theorem assignLookup_nil (uid : Nat) : assignLookup [] uid = none := rfl

theorem assignLookup_foldl_init (uid : Nat) :
    ∀ (prs : List (Nat × String)) (o : Option String),
      prs.foldl (fun acc pr => if pr.1 = uid then some pr.2 else acc) o
        = match assignLookup prs uid with
          | some rk => some rk
          | none => o := by
  intro prs
  induction prs with
  | nil => intro o; rfl
  | cons q prs ih =>
    intro o
    have hr : assignLookup (q :: prs) uid
        = match assignLookup prs uid with
          | some rk => some rk
          | none => if q.1 = uid then some q.2 else none := by
      unfold assignLookup
      rw [List.foldl_cons]
      exact ih _
    rw [List.foldl_cons, ih, hr]
    by_cases hq : q.1 = uid
    · cases assignLookup prs uid <;> simp [hq]
    · cases assignLookup prs uid <;> simp [hq]

theorem assignLookup_cons (q : Nat × String) (prs : List (Nat × String)) (uid : Nat) :
    assignLookup (q :: prs) uid
      = match assignLookup prs uid with
        | some rk => some rk
        | none => if q.1 = uid then some q.2 else none := by
  unfold assignLookup
  rw [List.foldl_cons]
  exact assignLookup_foldl_init uid prs _

theorem assignLookup_eq_none_iff (prs : List (Nat × String)) (uid : Nat) :
    assignLookup prs uid = none ↔ ∀ pr ∈ prs, pr.1 ≠ uid := by
  induction prs with
  | nil => simp [assignLookup_nil]
  | cons q prs ih =>
    rw [assignLookup_cons]
    cases h : assignLookup prs uid with
    | some rk =>
      dsimp only
      constructor
      · intro hc; cases hc
      · intro hall
        have hn : assignLookup prs uid = none :=
          ih.2 (fun pr hpr => hall pr (List.mem_cons_of_mem q hpr))
        rw [hn] at h
        cases h
    | none =>
      dsimp only
      constructor
      · intro hc
        intro pr hpr
        rcases List.mem_cons.1 hpr with rfl | hpr2
        · intro he
          rw [if_pos he] at hc
          cases hc
        · exact (ih.1 h) pr hpr2
      · intro hall
        rw [if_neg (hall q (by simp))]

theorem assignPairs_eq :
    ∀ (pairs : List (Nat × String)) (players : List (Nat × PlayerState)),
      assignPairs players pairs = players.map (assignFun pairs) := by
  intro pairs
  induction pairs with
  | nil =>
    intro players
    have h : players.map (assignFun []) = players.map (fun up => up) :=
      List.map_congr_left (fun up _ => rfl)
    rw [h, List.map_id']
    rfl
  | cons pr prs ih =>
    intro players
    have hstep : assignPairs players (pr :: prs)
        = assignPairs (players.map (fun up =>
            if up.1 == pr.1 then (up.1, { up.2 with role_key := some pr.2 }) else up)) prs := by
      unfold assignPairs
      rw [List.foldl_cons]
    rw [hstep, ih, List.map_map]
    apply List.map_congr_left
    intro up _
    show assignFun prs
        (if up.1 == pr.1 then (up.1, { up.2 with role_key := some pr.2 }) else up)
      = assignFun (pr :: prs) up
    unfold assignFun
    rw [assignLookup_cons]
    by_cases hq : up.1 == pr.1
    · have hq2 : pr.1 = up.1 := (eq_of_beq hq).symm
      rw [if_pos hq]
      cases h : assignLookup prs up.1 <;> simp [h, hq2]
    · have hq2 : ¬(pr.1 = up.1) := fun he => hq (by simp [he])
      rw [if_neg hq]
      cases h : assignLookup prs up.1 <;> simp [h, hq2]

theorem countRoleKey_eq_countP (players : List (Nat × PlayerState)) (r : String) :
    countRoleKey players r = players.countP (fun up => up.2.role_key == some r) := by
  unfold countRoleKey
  rw [List.countP_eq_length_filter]

theorem poolBase_acc (cfg : List (String × Int)) :
    ∀ a : List String,
      cfg.foldl (fun acc rc => acc ++ List.replicate rc.2.toNat rc.1) a
        = a ++ poolBase cfg := by
  induction cfg with
  | nil => intro a; simp [poolBase]
  | cons rc cfg ih =>
    intro a
    rw [List.foldl_cons, ih]
    have h2 : poolBase (rc :: cfg) = List.replicate rc.2.toNat rc.1 ++ poolBase cfg := by
      show cfg.foldl (fun acc q => acc ++ List.replicate q.2.toNat q.1)
          ([] ++ List.replicate rc.2.toNat rc.1) = _
      rw [ih]
      simp
    rw [h2, List.append_assoc]

theorem poolBase_cons (rc : String × Int) (cfg : List (String × Int)) :
    poolBase (rc :: cfg) = List.replicate rc.2.toNat rc.1 ++ poolBase cfg := by
  show cfg.foldl (fun acc q => acc ++ List.replicate q.2.toNat q.1)
      ([] ++ List.replicate rc.2.toNat rc.1) = _
  rw [poolBase_acc]
  simp

theorem configTotal_acc (cfg : List (String × Int)) :
    ∀ n : Nat, cfg.foldl (fun acc rc => acc + rc.2.toNat) n = n + configTotal cfg := by
  induction cfg with
  | nil => intro n; simp [configTotal]
  | cons rc cfg ih =>
    intro n
    rw [List.foldl_cons, ih]
    have h2 : configTotal (rc :: cfg) = rc.2.toNat + configTotal cfg := by
      show cfg.foldl (fun acc q => acc + q.2.toNat) (0 + rc.2.toNat) = _
      rw [ih]
      omega
    rw [h2]
    omega

theorem poolBase_length (cfg : List (String × Int)) :
    (poolBase cfg).length = configTotal cfg := by
  induction cfg with
  | nil => rfl
  | cons rc cfg ih =>
    rw [poolBase_cons, List.length_append, List.length_replicate, ih]
    have h2 : configTotal (rc :: cfg) = rc.2.toNat + configTotal cfg := by
      show cfg.foldl (fun acc q => acc + q.2.toNat) (0 + rc.2.toNat) = _
      rw [configTotal_acc]
      omega
    rw [h2]

theorem buildPool_eq (cfg : List (String × Int)) (n : Nat) :
    buildPool cfg n
      = poolBase cfg ++ List.replicate (n - (poolBase cfg).length) "ciudadano" := rfl

theorem buildPool_length_ge (cfg : List (String × Int)) (n : Nat) :
    n ≤ (buildPool cfg n).length := by
  rw [buildPool_eq, List.length_append, List.length_replicate]
  omega

theorem buildPool_length (cfg : List (String × Int)) (n : Nat)
    (h : configTotal cfg ≤ n) : (buildPool cfg n).length = n := by
  rw [buildPool_eq, List.length_append, List.length_replicate, poolBase_length]
  omega

theorem count_poolBase_zero (cfg : List (String × Int)) (r : String)
    (h : ∀ rc ∈ cfg, rc.1 ≠ r) : (poolBase cfg).count r = 0 := by
  induction cfg with
  | nil => rfl
  | cons rc cfg ih =>
    rw [poolBase_cons, List.count_append, ih (fun x hx => h x (List.mem_cons_of_mem rc hx))]
    have hb : (rc.1 == r) = false := by
      have hne := h rc (by simp)
      cases hb2 : rc.1 == r
      · rfl
      · exact absurd (eq_of_beq hb2) hne
    rw [List.count_replicate, hb]
    simp

theorem count_poolBase (cfg : List (String × Int)) (r : String) (c : Int)
    (hnd : (cfg.map (fun rc => rc.1)).Nodup) (hmem : (r, c) ∈ cfg) :
    (poolBase cfg).count r = c.toNat := by
  induction cfg with
  | nil => cases hmem
  | cons rc cfg ih =>
    rw [List.map_cons, List.nodup_cons] at hnd
    rw [poolBase_cons, List.count_append]
    rcases List.mem_cons.1 hmem with rfl | hmem2
    · have hz : (poolBase cfg).count r = 0 := by
        apply count_poolBase_zero
        intro x hx he
        exact hnd.1 (he ▸ List.mem_map_of_mem (fun rc => rc.1) hx)
      rw [hz, List.count_replicate]
      simp
    · have hne : rc.1 ≠ r := by
        intro he
        apply hnd.1
        rw [he]
        exact List.mem_map_of_mem (fun rc => rc.1) hmem2
      have hb : (rc.1 == r) = false := by
        cases hb2 : rc.1 == r
        · rfl
        · exact absurd (eq_of_beq hb2) hne
      rw [List.count_replicate, hb, ih hnd.2 hmem2]
      simp

theorem count_buildPool (cfg : List (String × Int)) (n : Nat) (r : String) (c : Int)
    (hr : r ≠ "ciudadano") (hnd : (cfg.map (fun rc => rc.1)).Nodup)
    (hmem : (r, c) ∈ cfg) : (buildPool cfg n).count r = c.toNat := by
  rw [buildPool_eq, List.count_append, count_poolBase cfg r c hnd hmem]
  have hb : (("ciudadano" : String) == r) = false := by
    cases hb2 : ("ciudadano" : String) == r
    · rfl
    · exact absurd (eq_of_beq hb2).symm hr
  rw [List.count_replicate, hb]
  simp

theorem countP_assign_zip (r : String) :
    ∀ (ids : List Nat) (pool : List String), ids.Nodup → ids.length ≤ pool.length →
      ids.countP (fun uid => assignLookup (ids.zip pool) uid == some r)
        = (pool.take ids.length).count r := by
  intro ids
  induction ids with
  | nil => intro pool _ _; simp
  | cons uid ids ih =>
    intro pool hnd hlen
    cases pool with
    | nil => simp at hlen
    | cons rk pool =>
      rw [List.nodup_cons] at hnd
      have hzk : ∀ pr ∈ ids.zip pool, pr.1 ∈ ids := by
        intro pr hpr
        exact (List.of_mem_zip hpr).1
      have hself : assignLookup ((uid :: ids).zip (rk :: pool)) uid = some rk := by
        rw [List.zip_cons_cons, assignLookup_cons]
        have hnone : assignLookup (ids.zip pool) uid = none := by
          rw [assignLookup_eq_none_iff]
          intro pr hpr he
          exact hnd.1 (he ▸ hzk pr hpr)
        rw [hnone]
        simp
      have hother : ∀ u ∈ ids,
          assignLookup ((uid :: ids).zip (rk :: pool)) u
            = assignLookup (ids.zip pool) u := by
        intro u hu
        rw [List.zip_cons_cons, assignLookup_cons]
        cases h : assignLookup (ids.zip pool) u with
        | some rk2 => rfl
        | none =>
          have hne : ¬(uid = u) := fun he => hnd.1 (he ▸ hu)
          simp [hne]
      rw [List.countP_cons]
      have hcongr : ids.countP
            (fun u => assignLookup ((uid :: ids).zip (rk :: pool)) u == some r)
          = ids.countP (fun u => assignLookup (ids.zip pool) u == some r) := by
        apply List.countP_congr
        intro u hu
        rw [hother u hu]
      rw [hcongr, ih pool hnd.2 (by simpa using hlen)]
      rw [hself]
      have htake : (rk :: pool).take (uid :: ids).length = rk :: pool.take ids.length := rfl
      rw [htake, List.count_cons]
      have hbeq : ((some rk : Option String) == some r) = (rk == r) := by
        by_cases he : rk = r
        · subst he; simp
        · have h1 : ((some rk : Option String) == some r) = false := by simp [he]
          have h2 : (rk == r) = false := by simp [he]
          rw [h1, h2]
      rw [hbeq]

/-- C6 as stated is false: with 3 players and config `{mafia: 2,
doctor: 2}` (each count ≤ 3) the zip truncates the pool, so the doctor
role is assigned to only one player. -/
theorem C6_counterexample :
    ([1, 2, 3] : List Nat).Perm (overflowGame.players.map (fun up => up.1))
      ∧ ("doctor", (2 : Int)) ∈ overflowGame.roles_config
      ∧ (2 : Int).toNat ≤ overflowGame.players.length
      ∧ countRoleKey (assign_roles overflowGame [1, 2, 3]
          (buildPool overflowGame.roles_config overflowGame.players.length)).players
          "doctor" ≠ 2 := by
  refine ⟨by decide, by decide, by decide, by decide⟩

/-- C6 amended: `assignRoles` gives exactly one role to every player
(total assigned equals the player count) for every shuffle outcome;
and each configured role key with count `c` is assigned to exactly `c`
players provided the *total* of the configured counts fits within the
player count (in particular whenever ciudadano filler is used); when
the totals overflow the player count, the zip truncation drops surplus
pool entries and a configured role can fall short of its count. -/
theorem C6_amended (g : GameState) (ids : List Nat) (pool : List String)
    (hids : ids.Perm (g.players.map (fun up => up.1)))
    (hpool : pool.Perm (buildPool g.roles_config g.players.length))
    (hkeys : (g.players.map (fun up => up.1)).Nodup) :
    ((assign_roles g ids pool).players.length = g.players.length)
    ∧ (∀ up ∈ (assign_roles g ids pool).players, up.2.role_key.isSome = true)
    ∧ (configTotal g.roles_config ≤ g.players.length →
        (g.roles_config.map (fun rc => rc.1)).Nodup →
        ∀ r c, (r, c) ∈ g.roles_config → r ≠ "ciudadano" →
          countRoleKey (assign_roles g ids pool).players r = c.toNat) := by
  have hplayers : (assign_roles g ids pool).players
      = g.players.map (assignFun (ids.zip pool)) := by
    unfold assign_roles
    exact assignPairs_eq (ids.zip pool) g.players
  have hlen_ids : ids.length = g.players.length := by
    have h := hids.length_eq
    simpa using h
  have hlen_pool_ge : ids.length ≤ pool.length := by
    have h1 := hpool.length_eq
    have h2 := buildPool_length_ge g.roles_config g.players.length
    omega
  have hids_nd : ids.Nodup := (hids.nodup_iff).2 hkeys
  have hzipkeys : (ids.zip pool).map Prod.fst = ids :=
    List.map_fst_zip ids pool hlen_pool_ge
  have hcover : ∀ uid ∈ g.players.map (fun up => up.1),
      (assignLookup (ids.zip pool) uid).isSome = true := by
    intro uid huid
    have hmemids : uid ∈ ids := hids.mem_iff.2 huid
    cases h : assignLookup (ids.zip pool) uid with
    | some rk => rfl
    | none =>
      exfalso
      have hall := (assignLookup_eq_none_iff _ _).1 h
      have hz : uid ∈ (ids.zip pool).map Prod.fst := by
        rw [hzipkeys]
        exact hmemids
      obtain ⟨pr, hpr, hpr1⟩ := List.mem_map.1 hz
      exact hall pr hpr hpr1
  refine ⟨?_, ?_, ?_⟩
  · rw [hplayers, List.length_map]
  · intro up hup
    rw [hplayers] at hup
    obtain ⟨up0, hup0, rfl⟩ := List.mem_map.1 hup
    have hc := hcover up0.1 (List.mem_map_of_mem (fun up => up.1) hup0)
    unfold assignFun
    cases h : assignLookup (ids.zip pool) up0.1 with
    | some rk => rfl
    | none => rw [h] at hc; cases hc
  · intro hfit hcfgnd r c hrc hrn
    rw [hplayers, countRoleKey_eq_countP, List.countP_map]
    have hcongr : g.players.countP
          ((fun up => up.2.role_key == some r) ∘ assignFun (ids.zip pool))
        = g.players.countP (fun up => assignLookup (ids.zip pool) up.1 == some r) := by
      apply List.countP_congr
      intro up hup
      have hc := hcover up.1 (List.mem_map_of_mem (fun up => up.1) hup)
      cases h : assignLookup (ids.zip pool) up.1 with
      | some rk => simp [Function.comp, assignFun, h]
      | none => rw [h] at hc; cases hc
    rw [hcongr]
    have hmap : g.players.countP (fun up => assignLookup (ids.zip pool) up.1 == some r)
        = (g.players.map (fun up => up.1)).countP
            (fun uid => assignLookup (ids.zip pool) uid == some r) := by
      rw [List.countP_map]
      rfl
    rw [hmap, ← hids.countP_eq]
    rw [countP_assign_zip r ids pool hids_nd hlen_pool_ge]
    have hpool_len : pool.length = g.players.length := by
      have h1 := hpool.length_eq
      rw [buildPool_length g.roles_config g.players.length hfit] at h1
      exact h1
    have htake : pool.take ids.length = pool := by
      rw [hlen_ids, ← hpool_len]
      exact List.take_length pool
    rw [htake, hpool.count_eq]
    exact count_buildPool g.roles_config g.players.length r c hrn hcfgnd hrc

/-- Witness for C6 amended: four players with `{mafia: 1, doctor: 1}`
(total 2 ≤ 4): everyone gets a role and exactly one player is mafia. -/
theorem C6_witness :
    countRoleKey (assign_roles lobbyGame4 [1, 2, 3, 4]
        (buildPool lobbyGame4.roles_config lobbyGame4.players.length)).players "mafia" = 1
      ∧ ∀ up ∈ (assign_roles lobbyGame4 [1, 2, 3, 4]
          (buildPool lobbyGame4.roles_config lobbyGame4.players.length)).players,
          up.2.role_key.isSome = true := by
  have h := C6_amended lobbyGame4 [1, 2, 3, 4]
    (buildPool lobbyGame4.roles_config lobbyGame4.players.length)
    (by decide) (List.Perm.refl _) (by decide)
  exact ⟨h.2.2 (by decide) (by decide) "mafia" 1 (by decide) (by decide), h.2.1⟩

/-- Witness for C8 amended: the unexpired wrong-actor case is refused
without change, and the expired case deletes the record. -/
theorem C8_witness :
    respond healPendingGame "k8" 2 3 5 = (healPendingGame, RespondOutcome.unauthorized)
      ∧ respond healPendingGame "k8" 2 3 20
          = (deletePending healPendingGame "k8", RespondOutcome.expired) := by
  have h := C8_amended healPendingGame "k8"
    { action := "heal", actor := some 1, target := some 2,
      confirmations := [], message_id := 0, expires_at := some 10 }
    2 3 5 (by decide)
  have h2 := C8_amended healPendingGame "k8"
    { action := "heal", actor := some 1, target := some 2,
      confirmations := [], message_id := 0, expires_at := some 10 }
    2 3 20 (by decide)
  exact ⟨h.1 10 1 rfl (by decide) rfl (by decide) (by decide),
    h2.2.2.1 10 rfl (by decide) (by decide)⟩

/-! ### C10 — death is monotone -/

theorem deadAt_killTarget (s : AttackState) (t : Nat) (tp : PlayerState) (u : Nat)
    (h : deadAt s.players u) : deadAt (killTarget s t tp).players u := by
  unfold killTarget
  exact deadAt_setAlive_false _ _ _ h

theorem deadAt_applyAttack (heals : List Nat) (guards : List (Nat × Nat))
    (s : AttackState) (atk : Nat × Nat × String) (u : Nat)
    (h : deadAt s.players u) : deadAt (applyAttack heals guards s atk).players u := by
  unfold applyAttack
  repeat' split
  all_goals first
    | exact h
    | exact deadAt_setAlive_false _ _ _ h

theorem deadAt_applyAttacks (heals : List Nat) (guards : List (Nat × Nat)) :
    ∀ (atks : List (Nat × Nat × String)) (s : AttackState) (u : Nat),
      deadAt s.players u → deadAt (applyAttacks heals guards s atks).players u := by
  intro atks
  induction atks with
  | nil => intro s u h; exact h
  | cons a atks ih =>
    intro s u h
    exact ih _ u (deadAt_applyAttack heals guards s a u h)

theorem deadAt_applyBlackmailEntry (st : List (Nat × PlayerState) × List String)
    (entry : Nat × Nat) (u : Nat) (h : deadAt st.1 u) :
    deadAt (applyBlackmailEntry st entry).1 u := by
  unfold applyBlackmailEntry
  repeat' split
  all_goals first
    | exact h
    | exact deadAt_setSilenced _ _ _ _ h

theorem deadAt_applyBlackmails :
    ∀ (entries : List (Nat × Nat)) (st : List (Nat × PlayerState) × List String) (u : Nat),
      deadAt st.1 u → deadAt (applyBlackmails st entries).1 u := by
  intro entries
  induction entries with
  | nil => intro st u h; exact h
  | cons e entries ih =>
    intro st u h
    exact ih _ u (deadAt_applyBlackmailEntry st e u h)

theorem deadAt_nightCleanup (g : GameState) (players : List (Nat × PlayerState)) (u : Nat)
    (h : deadAt players u) : deadAt (nightCleanup g players).players u := by
  unfold nightCleanup
  exact deadAt_map_keyed (fun _ p => { p with blocked := false })
    (fun _ p hp => hp) players u h

theorem deadAt_lynchStep (g : GameState) (chosen u : Nat) (h : deadAt g.players u) :
    deadAt (lynchStep g chosen).1.players u := by
  unfold lynchStep
  repeat' split
  all_goals first
    | exact h
    | exact deadAt_setAlive_false _ _ _ h

theorem respondDispatch_players (g : GameState) (key : String) (rec : PendingRec)
    (user target : Nat) : (respondDispatch g key rec user target).players = g.players := by
  unfold respondDispatch
  repeat' split
  all_goals rfl

/-- C10: once a player is recorded dead, night resolution, day-vote
resolution and the responders never bring them back: resolution passes
preserve deadness, and pending-action handling (respond, expire, the
consensus start and its timeout) never touches the player table at
all; the win check is a pure read. -/
theorem C10_death_monotone (g : GameState) (uid : Nat) (h : deadAt g.players uid) :
    deadAt (resolve_night g).g.players uid
    ∧ deadAt (resolve_votes_job g).g.players uid
    ∧ (∀ key user target now, (respond g key user target now).1.players = g.players)
    ∧ (∀ key, (expirePending g key).players = g.players)
    ∧ (∀ ck now, (handle_mafia_votes_and_confirm g ck now).g.players = g.players)
    ∧ (∀ ck, (mafia_confirm_timeout g ck).g.players = g.players) := by
  have h1 : deadAt (nightG1 g).players uid := deadAt_applyBlocks _ _ _ h
  have h2 : deadAt (nightAfterAttacks g).players uid :=
    deadAt_applyAttacks _ _ _ _ _ h1
  have h3 : deadAt (nightAfterBlackmail g).1 uid :=
    deadAt_applyBlackmails _ _ _ h2
  have h4 : deadAt (nightG2 g).players uid := deadAt_nightCleanup _ _ _ h3
  refine ⟨?_, ?_, ?_, ?_, ?_, ?_⟩
  · unfold resolve_night
    cases hwin : check_win_conditions_sync (nightG2 g) <;> dsimp only <;> exact h4
  · have hL : ∀ chosen, deadAt (lynchStep g chosen).1.players uid :=
      fun chosen => deadAt_lynchStep g chosen uid h
    unfold resolve_votes_job
    split
    · exact h
    · split
      · exact h
      · split <;> dsimp only <;> exact hL _
  · intro key user target now
    unfold respond
    repeat' split
    all_goals first
      | rfl
      | exact respondDispatch_players g key _ user target
  · intro key
    rfl
  · intro ck now
    unfold handle_mafia_votes_and_confirm
    repeat' split
    all_goals rfl
  · intro ck
    unfold mafia_confirm_timeout
    repeat' split
    all_goals rfl

/-- Witness for C10: the already-dead player 5 stays dead through the
night resolution, and responding never touches the player table. -/
theorem C10_witness :
    deadAt (resolve_night deadPlayerGame).g.players 5
      ∧ (respond deadPlayerGame "x" 1 2 0).1.players = deadPlayerGame.players := by
  have h := C10_death_monotone deadPlayerGame 5
    ⟨{ user_id := 5, name := "Elena", role_key := some "ciudadano",
       alive := false, blocked := false, silenced := false }, rfl, rfl⟩
  exact ⟨h.1, h.2.2.1 "x" 1 2 0⟩

end Mafiabot
